import Mathlib

/-!
Verification development for the skylinemed appointment-grabbing core.

The definitions below are shallow embeddings of the Go source:
  * `src/core/client.go`   (HTTP client: GetSchedule, GetTicketDetail, helpers)
  * `src/unnamed/part_003` (cookie persistence)
  * `src/unnamed/part_004` (grab engine, submit throttle, QR poll loop)

Machine integers are modelled as `Int`/`Nat`; Go `any` values as the
inductive `GoVal` (the value universe the configuration maps draw from:
null, strings, integers, booleans, lists, maps — floating-point values
are outside the modelled universe, no analysed property depends on them).
Time is modelled in integer milliseconds.  Fallible operations return
`Except`/`Option`.  Network effects are modelled by explicit environments
of responses, and the engine produces a trace of the network calls it
issued.
-/

set_option autoImplicit false
set_option maxRecDepth 10000

namespace Skyline

/-! ## Go value universe and conversion helpers (src/core/client.go:1053-1153) -/

/-- Model of a Go `any` value as produced by JSON decoding / the GUI bridge. -/
inductive GoVal where
  | vnull
  | vstr (s : String)
  | vint (n : Int)
  | vbool (b : Bool)
  | vlist (xs : List GoVal)
  | vmap (m : List (String × GoVal))

/-- A Go `map[string]any`, modelled as an association list (keys unique;
lookup takes the first binding). -/
abbrev GoMap := List (String × GoVal)

/-- Go map indexing `input[key]`: absent keys yield the nil interface. -/
def mapLookup (input : GoMap) (key : String) : Option GoVal :=
  (input.find? (fun p => p.1 = key)).map (fun p => p.2)

/-- Go map indexing that, like `m[k]` on a `map[string]any`, returns the
nil interface value for absent keys. -/
def mapIndex (input : GoMap) (key : String) : GoVal :=
  (mapLookup input key).getD GoVal.vnull

/-- Decimal rendering of an integer, as Go `fmt.Sprintf("%d", v)`. -/
def intStr (n : Int) : String :=
  if n < 0 then "-" ++ Nat.repr (-n).toNat else Nat.repr n.toNat

mutual

/-- Model of `toString` (src/core/client.go:1053): the typed cases of the
switch, with `fmt.Sprintf("%v", v)` for the remaining values (`nil`
renders as `"<nil>"`; composite values render like Go's `%v`, up to the
unspecified map iteration order). -/
def toString : GoVal → String
  | GoVal.vnull => "<nil>"
  | GoVal.vstr s => s
  | GoVal.vint n => intStr n
  | GoVal.vbool b => if b then "true" else "false"
  | GoVal.vlist xs => "[" ++ toStringItems xs ++ "]"
  | GoVal.vmap m => "map[" ++ toStringPairs m ++ "]"

/-- Space-separated `%v` rendering of a slice's elements. -/
def toStringItems : List GoVal → String
  | [] => ""
  | [x] => toString x
  | x :: xs => toString x ++ " " ++ toStringItems xs

/-- Space-separated `key:value` rendering of a map's entries. -/
def toStringPairs : List (String × GoVal) → String
  | [] => ""
  | [(k, v)] => k ++ ":" ++ toString v
  | (k, v) :: xs => k ++ ":" ++ toString v ++ " " ++ toStringPairs xs

end

/-- Model of `toInt` (src/core/client.go:1084); values with no matching
case (nil, lists, maps, booleans) fall through to `0`. -/
def toInt (v : GoVal) : Int :=
  match v with
  | GoVal.vint n => n
  | GoVal.vstr s =>
      if s = "" then 0
      else match s.toInt? with
        | some i => i
        | none => 0
  | _ => 0

/-- Model of `asMap` (src/core/client.go:1115). -/
def asMap (v : GoVal) : Option GoMap :=
  match v with
  | GoVal.vmap m => some m
  | _ => none

/-- Model of `asSlice` (src/core/client.go:1128). -/
def asSlice (v : GoVal) : List GoVal :=
  match v with
  | GoVal.vlist xs => xs
  | _ => []

/-- Helper for `strContains`: does `sub` occur as a contiguous
subsequence of the character list? -/
def containsSeq (sub : List Char) : List Char → Bool
  | [] => sub.isEmpty
  | c :: rest => sub.isPrefixOf (c :: rest) || containsSeq sub rest

/-- Substring test, as Go `strings.Contains`. -/
def strContains (s sub : String) : Bool :=
  containsSeq sub.toList s.toList

/-- Whitespace as trimmed by Go `strings.TrimSpace` (the Latin-1 range
of `unicode.IsSpace`; the remaining Unicode space classes do not occur
in the analysed strings). -/
def isSpaceGo (c : Char) : Bool :=
  c.toNat = 32 ∨ (9 ≤ c.toNat ∧ c.toNat ≤ 13) ∨ c.toNat = 0x85 ∨ c.toNat = 0xA0

/-- Model of `strings.TrimSpace`. -/
def trimGo (s : String) : String :=
  ⟨((s.data.dropWhile isSpaceGo).reverse.dropWhile isSpaceGo).reverse⟩

/-- ASCII lower-casing of one character. -/
def lowerCharGo (c : Char) : Char :=
  if 65 ≤ c.toNat ∧ c.toNat ≤ 90 then Char.ofNat (c.toNat + 32) else c

/-- Model of `strings.ToLower` (and of `strings.EqualFold` via comparing
lower-cased strings); ASCII-only, which agrees with Go on every string
these functions are applied to here. -/
def toLowerGo (s : String) : String :=
  ⟨s.data.map lowerCharGo⟩

/-! ## Configuration parsing (src/unnamed/part_004:687-877)

Go `strings.TrimSpace` / `strings.ToLower` / `strings.EqualFold` are
modelled by `trimGo` / `toLowerGo`; they agree on the ASCII
keywords and whitespace these functions are applied to. -/

/-- Model of `pickString` (src/unnamed/part_004:687): first key present in
the map whose value renders to a non-blank string. -/
def pickString (input : GoMap) (keys : List String) : String :=
  match keys with
  | [] => ""
  | key :: rest =>
      match mapLookup input key with
      | some value =>
          let text := trimGo (toString value)
          if text ≠ "" then text else pickString input rest
      | none => pickString input rest

/-- Model of `trimStringSlice` / the `[]any` branch of `pickStringSlice`:
trim every element's string form, dropping blanks. -/
def trimStringSlice (values : List GoVal) : List String :=
  match values with
  | [] => []
  | v :: rest =>
      let text := trimGo (toString v)
      if text = "" then trimStringSlice rest else text :: trimStringSlice rest

/-- Model of `pickStringSlice` (src/unnamed/part_004:699).  The Go
`[]string` and `[]any` branches coincide on the modelled universe. -/
def pickStringSlice (input : GoMap) (key : String) : List String :=
  match mapLookup input key with
  | none => []
  | some GoVal.vnull => []
  | some (GoVal.vlist v) => trimStringSlice v
  | some value =>
      let text := trimGo (toString value)
      if text = "" then [] else [text]

/-- Model of `pickBool` (src/unnamed/part_004:725). -/
def pickBool (input : GoMap) (key : String) : Bool :=
  match mapLookup input key with
  | none => false
  | some GoVal.vnull => false
  | some (GoVal.vbool b) => b
  | some (GoVal.vstr s) => s = "1" ∨ toLowerGo s = "true" ∨ toLowerGo s = "yes"
  | some (GoVal.vint n) => n ≠ 0
  | some _ => false

/-- Model of `pickBoolWithDefault` (src/unnamed/part_004:746): keys are
tried in order; absent/nil values and unrecognized value kinds continue
to the next key; a blank string returns the default immediately; an
unrecognized non-blank string also continues. -/
def pickBoolWithDefault (input : GoMap) (defaultValue : Bool) (keys : List String) : Bool :=
  match keys with
  | [] => defaultValue
  | key :: rest =>
      match mapLookup input key with
      | none => pickBoolWithDefault input defaultValue rest
      | some GoVal.vnull => pickBoolWithDefault input defaultValue rest
      | some (GoVal.vbool b) => b
      | some (GoVal.vstr s) =>
          let text := toLowerGo (trimGo s)
          if text = "" then defaultValue
          else if text = "1" ∨ text = "true" ∨ text = "yes" ∨ text = "on" then true
          else if text = "0" ∨ text = "false" ∨ text = "no" ∨ text = "off" then false
          else pickBoolWithDefault input defaultValue rest
      | some (GoVal.vint n) => n ≠ 0
      | some _ => pickBoolWithDefault input defaultValue rest

/-- Model of `pickInt` (src/unnamed/part_004:806) on the modelled value
universe (`strconv` parsing via `String.toInt?`; parse failures fall
through to `0`). -/
def pickInt (input : GoMap) (key : String) : Int :=
  match mapLookup input key with
  | none => 0
  | some GoVal.vnull => 0
  | some (GoVal.vint n) => n
  | some (GoVal.vstr s) =>
      if s = "" then 0
      else match (trimGo s).toInt? with
        | some i => i
        | none => 0
  | some _ => 0

/-- Model of `pickFloat` (src/unnamed/part_004:781) restricted to the
modelled value universe, where the only numbers are integers; the result
is the retry interval in whole seconds, which no analysed property
depends on. -/
def pickFloat (input : GoMap) (key : String) : Int :=
  pickInt input key

/-- Model of the `GrabConfig` structure (src/unnamed/part_001). -/
structure GrabConfig where
  unitID : String
  unitName : String
  depID : String
  depName : String
  doctorIDs : List String
  memberID : String
  memberName : String
  targetDates : List String
  timeTypes : List String
  preferredHours : List String
  addressID : String
  address : String
  startTime : String
  useServerTime : Bool
  retryInterval : Int
  maxRetries : Int
  useProxySubmit : Bool
deriving Repr, DecidableEq

/-- Model of `parseGrabConfig` (src/unnamed/part_004:428): required-field
validation with legacy key aliases (`target_date`, `doctor_id`,
`time_slots`, `proxy_submit_enabled`). -/
def parseGrabConfig (input : Option GoMap) : Except String GrabConfig :=
  match input with
  | none => Except.error "config is nil"
  | some input =>
      let unitID := pickString input ["unit_id"]
      let depID := pickString input ["dep_id"]
      let memberID := pickString input ["member_id"]
      let targetDates0 := pickStringSlice input "target_dates"
      let targetDates :=
        if targetDates0 = [] then
          let value := pickString input ["target_date"]
          if value ≠ "" then [value] else []
        else targetDates0
      if unitID = "" ∨ depID = "" ∨ memberID = "" ∨ targetDates = [] then
        Except.error "missing required fields (unit_id/dep_id/member_id/target_dates)"
      else
        let doctorIDs0 := pickStringSlice input "doctor_ids"
        let doctorIDs :=
          if doctorIDs0 = [] then
            let value := pickString input ["doctor_id"]
            if value ≠ "" then [value] else []
          else doctorIDs0
        let timeTypes0 := pickStringSlice input "time_types"
        let timeTypes :=
          if timeTypes0 = [] then pickStringSlice input "time_slots" else timeTypes0
        Except.ok
          { unitID := unitID
            unitName := pickString input ["unit_name"]
            depID := depID
            depName := pickString input ["dep_name"]
            doctorIDs := doctorIDs
            memberID := memberID
            memberName := pickString input ["member_name"]
            targetDates := targetDates
            timeTypes := timeTypes
            preferredHours := pickStringSlice input "preferred_hours"
            addressID := pickString input ["addressId", "address_id"]
            address := pickString input ["address"]
            startTime := pickString input ["start_time"]
            useServerTime := pickBool input "use_server_time"
            retryInterval := pickFloat input "retry_interval"
            maxRetries := pickInt input "max_retries"
            useProxySubmit := pickBoolWithDefault input true ["use_proxy_submit", "proxy_submit_enabled"] }

/-! ## Time-segment selection (src/unnamed/part_004:478-492) -/

/-- Model of the `TimeSlot` structure (src/unnamed/part_001). -/
structure TimeSlot where
  name : String
  value : String
deriving Repr, DecidableEq

/-- Inner loop of `pickTimeSlot`: the first slot whose name equals `p`. -/
def findSlotNamed (p : String) : List TimeSlot → Option TimeSlot
  | [] => none
  | slot :: rest => if slot.name = p then some slot else findSlotNamed p rest

/-- Outer loop of `pickTimeSlot`: the first preferred entry matching some
slot, in preferred order. -/
def findPreferredSlot (slots : List TimeSlot) : List String → Option TimeSlot
  | [] => none
  | p :: rest =>
      match findSlotNamed p slots with
      | some slot => some slot
      | none => findPreferredSlot slots rest

/-- Model of `pickTimeSlot` (src/unnamed/part_004:478).  The
`len(preferred) > 0` guard in the source is redundant with the empty
outer loop and is dropped. -/
def pickTimeSlot (slots : List TimeSlot) (preferred : List String) : TimeSlot :=
  match slots with
  | [] => { name := "", value := "" }
  | s0 :: _ =>
      match findPreferredSlot slots preferred with
      | some slot => slot
      | none => s0

/-! ## Submission throttle (src/unnamed/part_004:15-20, 600-626)

Time is in milliseconds on a monotone clock.  `lastSubmitAt = none`
models the zero `time.Time` of a fresh `Grabber`. -/

/-- Constant `submitMinIntervalMs` (src/unnamed/part_004:17). -/
def submitMinIntervalMs : Nat := 1800

/-- Constant `submitBackoffMinMs` (src/unnamed/part_004:18). -/
def submitBackoffMinMs : Nat := 2500

/-- Constant `submitBackoffMaxMs` (src/unnamed/part_004:19). -/
def submitBackoffMaxMs : Nat := 4200

/-- Model of the wait computed by `applySubmitThrottle`
(src/unnamed/part_004:611): zero when no prior submission or when at
least the minimum interval has elapsed, else the remainder of the
interval.  The sleep taking place is cancellable in the source
(`sleepWithContext`); a cancelled sleep yields no submission at all. -/
def throttleWait (lastSubmitAt : Option Nat) (now : Nat) : Nat :=
  match lastSubmitAt with
  | none => 0
  | some last =>
      let elapsed := now - last
      if elapsed ≥ submitMinIntervalMs then 0 else submitMinIntervalMs - elapsed

/-- Model of one completed `submitOnce` (src/unnamed/part_004:600): the
throttle sleep (with a non-negative timer overshoot `eps`) followed by
recording `lastSubmitAt` and starting the network submission at that
instant. -/
def submitStartAt (lastSubmitAt : Option Nat) (now eps : Nat) : Nat :=
  let wait := throttleWait lastSubmitAt now
  if wait = 0 then now else now + wait + eps

/-- Model of a serial sequence of `submitOnce` calls on one `Grabber`:
each list entry `(d, eps)` gives the delay from the previous recorded
`lastSubmitAt` to the moment the next call reads the clock, and that
call's timer overshoot.  Returns the submission start instants. -/
def runSubmits (lastSubmitAt : Option Nat) : List (Nat × Nat) → List Nat
  | [] => []
  | (d, eps) :: rest =>
      let now := match lastSubmitAt with
        | none => d
        | some last => last + d
      let t := submitStartAt lastSubmitAt now eps
      t :: runSubmits (some t) rest

/-! ## Throttle-detection and backoff (src/unnamed/part_004:628-649) -/

/-- Model of `isTooFastMessage` (src/unnamed/part_004:628): the failure
message contains one of the known throttling phrases. -/
def isTooFastMessage (message : String) : Bool :=
  let message := trimGo message
  if message = "" then false
  else strContains message "太快" || strContains message "频繁" || strContains message "刷新"

/-- Model of `randomBackoffMs` (src/unnamed/part_004:638); `r` is the
value drawn by `rand.Intn(maxMs-minMs+1)`, reduced modulo the range. -/
def randomBackoffMs (minMs maxMs r : Nat) : Nat :=
  if minMs = 0 ∧ maxMs = 0 then 0
  else
    let maxMs := if maxMs < minMs then minMs else maxMs
    if maxMs = minMs then maxMs
    else minMs + r % (maxMs - minMs + 1)

/-! ## Start-time trigger and clock calibration (src/unnamed/part_004:547-664)

Instants are integer milliseconds; `Int.div` matches Go's
truncated division on `time.Duration`. -/

/-- Model of `calibrateTimeOffset` (src/unnamed/part_004:651): given the
instants at which the timed round trip started and ended and the server
timestamp it returned, the skew offset is
`serverTime − (start + roundTrip/2)`; an unavailable server time yields
offset `0`. -/
def calibrateTimeOffset (sample : Option (Int × Int × Int)) : Int :=
  match sample with
  | none => 0
  | some (start, stop, server) => server - (start + Int.tdiv (stop - start) 2)

/-- Model of the trigger instant computed by `waitUntil`
(src/unnamed/part_004:547-564): the configured target shifted earlier by
the calibrated offset; when the adjusted instant is not in the future the
wait returns immediately (`none`).  The offset is calibrated only when
the use-server-time flag is set. -/
def waitUntilTrigger (now target : Int) (useServerTime : Bool)
    (sample : Option (Int × Int × Int)) : Option Int :=
  let offset := if useServerTime then calibrateTimeOffset sample else 0
  let adjusted := target - offset
  if adjusted ≤ now then none else some adjusted

/-! ## Cookie persistence (src/unnamed/part_003:15-89)

Go's `encoding/json` round-trips the record fields faithfully, so the
file contents are modelled as the record list itself.  The Go map
iteration order of `normalizeCookieRecords` is unspecified; the model
keeps first-insertion order with last-write-wins values and results are
compared as sets. -/

/-- Model of the `CookieRecord` structure (src/unnamed/part_003:15). -/
structure CookieRecord where
  name : String
  value : String
  domain : String
  path : String
deriving Repr, DecidableEq

/-- Default domain/path applied by `normalizeCookieRecords`
(src/unnamed/part_003:75-80). -/
def cookieDefaults (r : CookieRecord) : CookieRecord :=
  { r with
    domain := if r.domain = "" then ".91160.com" else r.domain
    path := if r.path = "" then "/" else r.path }

/-- Dedup key of `normalizeCookieRecords` (src/unnamed/part_003:81):
lower-cased domain, then path and name verbatim. -/
def cookieKey (r : CookieRecord) : String :=
  toLowerGo r.domain ++ "|" ++ r.path ++ "|" ++ r.name

/-- Write into the keyed accumulator, replacing an existing binding of
the same key (Go `unique[key] = record`). -/
def upsertCookie (acc : List (String × CookieRecord)) (key : String) (r : CookieRecord) :
    List (String × CookieRecord) :=
  match acc with
  | [] => [(key, r)]
  | (k, old) :: rest =>
      if k = key then (k, r) :: rest else (k, old) :: upsertCookie rest key r

/-- Loop of `normalizeCookieRecords` (src/unnamed/part_003:71-83). -/
def normCookieAux (acc : List (String × CookieRecord)) : List CookieRecord →
    List (String × CookieRecord)
  | [] => acc
  | r :: rest =>
      if r.name = "" then normCookieAux acc rest
      else
        let r' := cookieDefaults r
        normCookieAux (upsertCookie acc (cookieKey r') r') rest

/-- Model of `normalizeCookieRecords` (src/unnamed/part_003:69). -/
def normalizeCookieRecords (records : List CookieRecord) : List CookieRecord :=
  (normCookieAux [] records).map (fun p => p.2)

/-- Model of `saveCookieFile` (src/unnamed/part_003:49): normalizes, then
fails when nothing remains, else writes the normalized list as JSON (the
written contents are returned). -/
def saveCookieFile (records : List CookieRecord) : Except String (List CookieRecord) :=
  let records := normalizeCookieRecords records
  if records = [] then Except.error "no cookies to save"
  else Except.ok records

/-- Model of `loadCookieFile` on a file holding a record list
(src/unnamed/part_003:28-31). -/
def loadCookieList (fileRecords : List CookieRecord) : List CookieRecord :=
  normalizeCookieRecords fileRecords

/-- Model of `loadCookieFile` on a legacy flat name→value map
(src/unnamed/part_003:33-46): each entry becomes a record with the
default domain and path, then the list is normalized. -/
def loadCookieLegacy (dict : List (String × String)) : List CookieRecord :=
  normalizeCookieRecords
    (dict.map (fun p => { name := p.1, value := p.2, domain := ".91160.com", path := "/" }))

/-- Round trip: save to the cookie file, then reload; `none` when the
save was refused. -/
def saveThenLoad (records : List CookieRecord) : Option (List CookieRecord) :=
  match saveCookieFile records with
  | Except.ok written => some (loadCookieList written)
  | Except.error _ => none

/-- Dedup key written from the spec's words for the refinement
comparison: case-insensitive in all of domain, path and name. -/
def cookieKeyCI (r : CookieRecord) : String :=
  toLowerGo r.domain ++ "|" ++ toLowerGo r.path ++ "|" ++ toLowerGo r.name

/-- Deduplication modelled from the claim's words: case-insensitive
dedup keyed by (domain, path, name), last write winning, with the same
defaulting as the code. -/
def dedupCaseInsensitive (records : List CookieRecord) : List CookieRecord :=
  (records.foldl
    (fun acc r =>
      if r.name = "" then acc
      else
        let r' := cookieDefaults r
        upsertCookie acc (cookieKeyCI r') r')
    []).map (fun p => p.2)

/-- Last-write-wins reference: the final record among the defaulted,
name-filtered records carrying dedup key `k`. -/
def lastCookieWithKey (acc : Option CookieRecord) (k : String) :
    List CookieRecord → Option CookieRecord
  | [] => acc
  | r :: rest =>
      if r.name ≠ "" ∧ cookieKey (cookieDefaults r) = k then
        lastCookieWithKey (some (cookieDefaults r)) k rest
      else lastCookieWithKey acc k rest

/-! ## Address normalization and resolution
(src/core/client.go:311-445, src/unnamed/part_004:494-545) -/

/-- Model of the `AddressOption` structure (src/unnamed/part_001). -/
structure AddressOption where
  id : String
  text : String
deriving Repr, DecidableEq

/-- Model of `normalizeAddressID` (src/unnamed/part_004:520 and the
identical local closure in src/core/client.go:311). -/
def normalizeAddressID (value : String) : String :=
  let value := trimGo value
  if value = "" ∨ value = "0" ∨ value = "-1" then "" else value

/-- Placeholder phrases rejected by `normalizeAddressText`. -/
def addressPlaceholders : List String := ["请选择", "请填写", "请输入", "城市地址"]

/-- Model of `normalizeAddressText` (src/unnamed/part_004:528 and the
identical local closure in src/core/client.go:318). -/
def normalizeAddressText (value : String) : String :=
  let value := trimGo value
  if value = "" then ""
  else if addressPlaceholders.any (fun p => strContains value p) then ""
  else value

/-- Model of one member radio/hidden input (`input[name='mid']`) on the
ticket page; `areaID`/`address` are the values `attrFallback` resolves
from the aliased attribute names. -/
structure MidInput where
  value : String
  checked : Bool
  areaID : String
  address : String
deriving Repr, DecidableEq

/-- Selection of the member input (src/core/client.go:346-369): the
input whose value matches the given member id; with no member id, the
checked input, else the first one. -/
def selectMid (memberID : String) (inputs : List MidInput) : Option MidInput :=
  let midValue := trimGo memberID
  if midValue ≠ "" then inputs.find? (fun i => trimGo i.value = midValue)
  else
    match inputs.find? (fun i => i.checked) with
    | some i => some i
    | none => inputs.head?

/-- Model of the relevant parts of the parsed ticket page. -/
structure TicketPage where
  midInputs : List MidInput
  inputAddressId : String
  inputAddress : String
  options : List (String × String × Bool)
deriving Repr, DecidableEq

/-- Building the address option list (src/core/client.go:381-396):
options with a valid id and text are collected; the first one carrying
the `selected` attribute is remembered. -/
def buildAddressOptions : List (String × String × Bool) →
    List AddressOption × Option AddressOption
  | [] => ([], none)
  | (v, t, sel) :: rest =>
      let val := normalizeAddressID v
      let text := normalizeAddressText t
      let (list, selected) := buildAddressOptions rest
      if val = "" ∨ text = "" then (list, selected)
      else
        let item : AddressOption := { id := val, text := text }
        (item :: list, if sel then some item else selected)

/-- Address part of `GetTicketDetail` (src/core/client.go:342-428):
page-level default inputs, text looked up from the option list by id,
fallback to the selected option else the first option (each component
filled independently), and finally the member's own stored address
overriding per component.  Returns (addressID, addressText, option
list). -/
def ticketAddress (page : TicketPage) (memberID : String) :
    String × String × List AddressOption :=
  let selectedMid := selectMid memberID page.midInputs
  let midAddressID :=
    match selectedMid with
    | some m => normalizeAddressID m.areaID
    | none => ""
  let midAddressText :=
    match selectedMid with
    | some m => normalizeAddressText m.address
    | none => ""
  let addressID := normalizeAddressID page.inputAddressId
  let addressText := normalizeAddressText page.inputAddress
  let (addressList, selectedAddress) := buildAddressOptions page.options
  let addressText :=
    if addressID ≠ "" ∧ addressText = "" then
      match addressList.find? (fun item => item.id = addressID) with
      | some item => item.text
      | none => addressText
    else addressText
  let pair :=
    if addressID = "" ∨ addressText = "" then
      match selectedAddress with
      | some sel =>
          (if addressID = "" then sel.id else addressID,
           if addressText = "" then sel.text else addressText)
      | none =>
          match addressList with
          | first :: _ =>
              (if addressID = "" then first.id else addressID,
               if addressText = "" then first.text else addressText)
          | [] => (addressID, addressText)
    else (addressID, addressText)
  let outID := if midAddressID ≠ "" then midAddressID else pair.1
  let outText := if midAddressText ≠ "" then midAddressText else pair.2
  (outID, outText, addressList)

/-- Model of the `TicketDetail` structure (src/unnamed/part_001),
restricted to the fields the engine reads. -/
structure TicketDetail where
  times : List TimeSlot
  timeSlots : List TimeSlot
  schData : String
  detlidRealtime : String
  levelCode : String
  schDate : String
  orderNo : String
  diseaseContent : String
  diseaseInput : String
  isHot : String
  hisMemID : String
  addressID : String
  address : String
  addresses : List AddressOption
deriving Repr, DecidableEq

/-- First option-list entry with both components valid, as scanned by
`resolveAddress` (src/unnamed/part_004:503-515). -/
def findValidAddress : List AddressOption → Option (String × String)
  | [] => none
  | item :: rest =>
      let candID := normalizeAddressID item.id
      let candText := normalizeAddressText item.text
      if candID = "" ∨ candText = "" then findValidAddress rest
      else some (candID, candText)

/-- Model of `resolveAddress` (src/unnamed/part_004:494): explicit
config values; if either is missing, both replaced by the detail's
resolved pair; if either is still missing, both replaced by the first
fully-valid option-list entry. -/
def resolveAddress (config : GrabConfig) (detail : TicketDetail) : String × String :=
  let addressID := normalizeAddressID config.addressID
  let addressText := normalizeAddressText config.address
  let pair :=
    if addressID = "" ∨ addressText = "" then
      (normalizeAddressID detail.addressID, normalizeAddressText detail.address)
    else (addressID, addressText)
  if (pair.1 = "" ∨ pair.2 = "") ∧ detail.addresses ≠ [] then
    match findValidAddress detail.addresses with
    | some cand => cand
    | none => pair
  else pair

/-- Address resolution modelled from the claim's words, for the
refinement comparison: request-level pair first, else page-level default
pair, else the selected/marked option else the first option entry, and
finally the member's own stored address overriding the result when
present. -/
def resolveAddressClaim (config : GrabConfig) (page : TicketPage) (memberID : String) :
    String × String :=
  let explicitID := normalizeAddressID config.addressID
  let explicitText := normalizeAddressText config.address
  let pageID := normalizeAddressID page.inputAddressId
  let pageText := normalizeAddressText page.inputAddress
  let (list, selected) := buildAddressOptions page.options
  let listPair :=
    match selected with
    | some s => (s.id, s.text)
    | none =>
        match list with
        | first :: _ => (first.id, first.text)
        | [] => ("", "")
  let base :=
    if explicitID ≠ "" ∧ explicitText ≠ "" then (explicitID, explicitText)
    else if pageID ≠ "" ∧ pageText ≠ "" then (pageID, pageText)
    else listPair
  let midPair :=
    match selectMid memberID page.midInputs with
    | some m => (normalizeAddressID m.areaID, normalizeAddressText m.address)
    | none => ("", "")
  if midPair.1 ≠ "" ∧ midPair.2 ≠ "" then midPair else base

/-! ## Schedule querying (src/core/client.go:637-793)

`GetSchedule` loops over the known access-token values, issuing one query
per token; each iteration's network outcome is supplied as a `SchedResp`.
Decoded JSON payloads are `GoMap` values.  Go map iteration order inside
a payload is modelled by list order. -/

/-- Network outcome of one per-token schedule query. -/
inductive SchedResp where
  | reqErr
  | doErr (m : String)
  | readErr (m : String)
  | httpCode (c : Nat)
  | badJSON (m : String)
  | payload (p : GoMap)

/-- Result of `GetSchedule`: a doctor list, Go's `(nil, nil)` outcome, or
an error that is `LoginRequired` exactly when it wraps
`ErrLoginRequired`. -/
inductive SchedOut where
  | docs (ds : List GoMap)
  | nothing
  | fatal (loginRequired : Bool) (msg : String)

/-- Write `m[k] = v` on a Go map modelled as an association list. -/
def mapSet (m : GoMap) (k : String) (v : GoVal) : GoMap :=
  match m with
  | [] => [(k, v)]
  | (k', v') :: rest => if k' = k then (k, v) :: rest else (k', v') :: mapSet rest k v

/-- Slots of one time-type value having a nonempty schedule id
(src/core/client.go:712-734); the map and slice cases collect the same
way. -/
def slotsWithScheduleID (v : GoVal) : List GoMap :=
  match v with
  | GoVal.vmap m =>
      m.foldr
        (fun p acc =>
          match asMap p.2 with
          | some sm => if toString (mapIndex sm "schedule_id") ≠ "" then sm :: acc else acc
          | none => acc)
        []
  | GoVal.vlist xs =>
      xs.foldr
        (fun x acc =>
          match asMap x with
          | some sm => if toString (mapIndex sm "schedule_id") ≠ "" then sm :: acc else acc
          | none => acc)
        []
  | _ => []

/-- All of a doctor's kept slots, `am` then `pm`
(src/core/client.go:708-735). -/
def collectSchedules (rawSchedule : GoVal) : List GoMap :=
  match asMap rawSchedule with
  | none => []
  | some schData =>
      slotsWithScheduleID (mapIndex schData "am") ++ slotsWithScheduleID (mapIndex schData "pm")

/-- The `data` object of a schedule payload. -/
def resultDataOf (payload : GoMap) : GoMap :=
  (asMap (mapIndex payload "data")).getD []

/-- The `doc` list of a schedule payload. -/
def docListOf (payload : GoMap) : List GoVal :=
  asSlice (mapIndex (resultDataOf payload) "doc")

/-- Sum of the remaining counts across a doctor's slots
(src/core/client.go:744-747). -/
def totalLeftOf (schedules : List GoMap) : Int :=
  schedules.foldl (fun acc s => acc + toInt (mapIndex s "left_num")) 0

/-- Aggregation of valid doctors (src/core/client.go:693-750): keep only
doctors with a nonempty id and at least one slot with a nonzero schedule
id; attach the slot list, head-slot fields and the total remaining
count. -/
def validDocsOf (payload : GoMap) : List GoMap :=
  let schMap := (asMap (mapIndex (resultDataOf payload) "sch")).getD []
  (docListOf payload).foldr
    (fun rawDoc acc =>
      match asMap rawDoc with
      | none => acc
      | some doc =>
          let docID := toString (mapIndex doc "doctor_id")
          if docID = "" then acc
          else
            match mapIndex schMap docID with
            | GoVal.vnull => acc
            | rawSchedule =>
                match collectSchedules rawSchedule with
                | [] => acc
                | s0 :: srest =>
                    let schedules := s0 :: srest
                    let doc := mapSet doc "schedules" (GoVal.vlist (schedules.map GoVal.vmap))
                    let doc := mapSet doc "schedule_id"
                      (GoVal.vstr (toString (mapIndex s0 "schedule_id")))
                    let doc := mapSet doc "time_type_desc"
                      (GoVal.vstr (toString (mapIndex s0 "time_type_desc")))
                    let doc := mapSet doc "total_left_num" (GoVal.vint (totalLeftOf schedules))
                    doc :: acc)
    []

/-- The `schedule api error: ...` message (src/core/client.go:763-781);
the chained fallbacks advance only on a value rendering to the empty
string. -/
def apiErrorMsg (p : GoMap) : String :=
  let errCode := toString (mapIndex p "error_code")
  let errCode := if errCode = "" then toString (mapIndex p "result_code") else errCode
  let errMsg := toString (mapIndex p "error_msg")
  let errMsg := if errMsg = "" then toString (mapIndex p "error_desc") else errMsg
  let errMsg := if errMsg = "" then toString (mapIndex p "msg") else errMsg
  let errMsg := if errMsg = "" then toString (mapIndex p "message") else errMsg
  let errMsg := if errMsg = "" then toString (mapIndex p "result_msg") else errMsg
  "schedule api error: code=" ++ errCode ++ " msg=" ++ errMsg

/-- Per-token loop of `GetSchedule` (src/core/client.go:651-792),
carrying the last stored error and the login-expired flag.  An explicit
`error_code=10022` payload sets the flag and continues with the next
token; only after the loop does it surface as a `LoginRequired` error.
Error messages are modelled up to the `ErrLoginRequired` sentinel
prefix. -/
def schedLoop : List SchedResp → String → Bool → SchedOut
  | [], lastError, loginExpired =>
      if loginExpired then SchedOut.fatal true "error_code=10022"
      else SchedOut.fatal false (if lastError = "" then "schedule query failed" else lastError)
  | resp :: rest, lastError, loginExpired =>
      match resp with
      | SchedResp.reqErr => schedLoop rest lastError loginExpired
      | SchedResp.doErr m => schedLoop rest ("schedule request failed: " ++ m) loginExpired
      | SchedResp.readErr m => schedLoop rest ("schedule read failed: " ++ m) loginExpired
      | SchedResp.httpCode c => schedLoop rest ("schedule http " ++ Nat.repr c) loginExpired
      | SchedResp.badJSON m => schedLoop rest ("schedule decode failed: " ++ m) loginExpired
      | SchedResp.payload p =>
          if toString (mapIndex p "result_code") = "1" then
            match validDocsOf p with
            | d :: ds => SchedOut.docs (d :: ds)
            | [] =>
                if ¬ (docListOf p).isEmpty then SchedOut.nothing
                else schedLoop rest lastError loginExpired
          else if toString (mapIndex p "error_code") = "10022" then
            schedLoop rest lastError true
          else schedLoop rest (apiErrorMsg p) loginExpired

/-- Model of `GetSchedule` (src/core/client.go:637): no access-token
cookie at all is itself a `LoginRequired` error; otherwise one query per
token, consuming one response each. -/
def getScheduleGo (userKeys : List String) (responses : List SchedResp) : SchedOut :=
  if userKeys.isEmpty then SchedOut.fatal true "missing access_hash"
  else schedLoop (responses.take userKeys.length) "" false

/-- Schedule querying modelled from the claim's words for the refinement
comparison: a session-expired code aborts immediately, without trying the
remaining tokens. -/
def schedLoopSpecAbort : List SchedResp → String → SchedOut
  | [], lastError =>
      SchedOut.fatal false (if lastError = "" then "schedule query failed" else lastError)
  | resp :: rest, lastError =>
      match resp with
      | SchedResp.reqErr => schedLoopSpecAbort rest lastError
      | SchedResp.doErr m => schedLoopSpecAbort rest ("schedule request failed: " ++ m)
      | SchedResp.readErr m => schedLoopSpecAbort rest ("schedule read failed: " ++ m)
      | SchedResp.httpCode c => schedLoopSpecAbort rest ("schedule http " ++ Nat.repr c)
      | SchedResp.badJSON m => schedLoopSpecAbort rest ("schedule decode failed: " ++ m)
      | SchedResp.payload p =>
          if toString (mapIndex p "result_code") = "1" then
            match validDocsOf p with
            | d :: ds => SchedOut.docs (d :: ds)
            | [] =>
                if ¬ (docListOf p).isEmpty then SchedOut.nothing
                else schedLoopSpecAbort rest lastError
          else if toString (mapIndex p "error_code") = "10022" then
            SchedOut.fatal true "error_code=10022"
          else schedLoopSpecAbort rest (apiErrorMsg p)

/-- `GetSchedule` modelled from the claim's words (immediate abort on the
session-expired code). -/
def getScheduleSpecAbort (userKeys : List String) (responses : List SchedResp) : SchedOut :=
  if userKeys.isEmpty then SchedOut.fatal true "missing access_hash"
  else schedLoopSpecAbort (responses.take userKeys.length) ""

/-! ## QR-status polling (src/unnamed/part_004:964-1077)

One `QRResp` abstracts one long-poll iteration: either a transport
failure, or the pattern-match results extracted from the body
(`wx_errcode`, `wx_code`, and the redirect URL with its parsed `state`
and `code` query values).  The `lastStatus` variable only drives the
edge-triggered status callbacks and the `last` URL parameter, neither of
which affects control flow, so it is not part of the modelled state.
Network latency is treated as zero; every loop path sleeps 1s (2s after
a transport `Do` failure) before the next iteration, and the wall-clock
timeout is checked at the top of each iteration. -/

/-- Pattern-match results of one poll response body. -/
structure QRBody where
  errcode : Option String
  code : String
  hasRedirect : Bool
  redirectParseOk : Bool
  redirectState : String
  redirectCode : String
deriving Repr, DecidableEq

/-- One poll iteration's outcome. -/
inductive QRResp where
  | reqErr
  | doErr
  | readErr
  | body (b : QRBody)
deriving Repr, DecidableEq

/-- Terminal outcome of the poll loop.  `expiredTimeout` and
`expiredCounter` both surface as the message `"qr expired"`;
`outOfResponses` marks exhaustion of the supplied response stream with
the poll still running (carrying the counter for inspection). -/
inductive PollOut where
  | expiredTimeout
  | expiredCounter
  | loginWith (code : String)
  | outOfResponses (retry404 : Nat) (elapsed : Nat)
deriving Repr, DecidableEq

/-- User-facing message of a poll outcome (src/unnamed/part_004:989 and
1042 both yield `"qr expired"`). -/
def pollMessage : PollOut → String
  | PollOut.expiredTimeout => "qr expired"
  | PollOut.expiredCounter => "qr expired"
  | PollOut.loginWith _ => "login"
  | PollOut.outOfResponses _ _ => "polling"

/-- Status string computed from a body (src/unnamed/part_004:1012-1026):
the matched `wx_errcode`, defaulting to `"0"`, normalized to `"405"` when
a code or redirect is present without an explicit status. -/
def pollStatusOf (b : QRBody) : String :=
  let status := b.errcode.getD "0"
  if status = "0" ∧ (b.code ≠ "" ∨ b.hasRedirect) then "405" else status

/-- Poll loop of `FastQRLogin.PollStatus` (src/unnamed/part_004:984-1077)
over a stream of responses; returns the outcome and the unconsumed
responses.  State: elapsed wall-clock milliseconds and the consecutive
not-yet-ready counter `retry404`. -/
def pollLoop (timeout : Nat) : List QRResp → Nat → Nat → PollOut × List QRResp
  | [], elapsed, retry404 => (PollOut.outOfResponses retry404 elapsed, [])
  | resp :: rest, elapsed, retry404 =>
      if elapsed > timeout then (PollOut.expiredTimeout, resp :: rest)
      else
        match resp with
        | QRResp.reqErr => pollLoop timeout rest (elapsed + 1000) retry404
        | QRResp.doErr => pollLoop timeout rest (elapsed + 2000) retry404
        | QRResp.readErr => pollLoop timeout rest (elapsed + 1000) retry404
        | QRResp.body b =>
            let status := pollStatusOf b
            if status = "408" then pollLoop timeout rest (elapsed + 1000) 0
            else if status = "404" ∨ status = "402" then
              if retry404 + 1 > 60 then (PollOut.expiredCounter, rest)
              else pollLoop timeout rest (elapsed + 1000) (retry404 + 1)
            else if status = "201" then pollLoop timeout rest (elapsed + 1000) 0
            else if status = "405" then
              let code :=
                if b.code = "" ∧ b.hasRedirect ∧ b.redirectParseOk then b.redirectCode
                else b.code
              if code = "" then pollLoop timeout rest (elapsed + 1000) retry404
              else (PollOut.loginWith code, rest)
            else pollLoop timeout rest (elapsed + 1000) retry404

/-- Model of `PollStatus` with the default timeout handling
(src/unnamed/part_004:971-973): a non-positive timeout becomes five
minutes. -/
def pollStatus (timeoutMs : Int) (responses : List QRResp) : PollOut × List QRResp :=
  let timeout : Nat := if timeoutMs ≤ 0 then 300000 else timeoutMs.toNat
  pollLoop timeout responses 0 0

/-- Counter transition modelled from the claim's words as amended: 404
and 402 increment, the waiting (408) and scanned (201) statuses reset,
every other status leaves the counter unchanged. -/
def retry404Step (r : Nat) (status : String) : Nat :=
  if status = "404" ∨ status = "402" then r + 1
  else if status = "408" ∨ status = "201" then 0
  else r

/-- Longest run of consecutive 404/402 body responses in a stream, where
any other response breaks the run (the reading of "consecutive
occurrences" under the claim as stated). -/
def maxRun404 (rs : List QRResp) : Nat :=
  let step := fun (acc : Nat × Nat) (r : QRResp) =>
    match r with
    | QRResp.body b =>
        let status := pollStatusOf b
        if status = "404" ∨ status = "402" then
          let cur := acc.1 + 1
          (cur, max acc.2 cur)
        else (0, acc.2)
    | _ => (0, acc.2)
  (rs.foldl step (0, 0)).2

/-! ## Grab engine (src/unnamed/part_004:15-409)

The engine is modelled as an interpreter over an environment of network
responses.  Every network call is appended to a trace; every cancellable
sleep consumes one entry of the `sleeps` stream (`false` models the
context being cancelled during that sleep — the only point at which the
model observes cancellation).  Wall-clock time is not tracked here (the
throttle's real-time behaviour is the standalone model above); whether a
submit must wait is supplied by the `throttles` oracle stream.  The
`waitUntil` start-trigger is modelled coarsely by its network call and
one cancellable wait, its calendar arithmetic being analysed separately
via `waitUntilTrigger`. -/

/-- Constant `dateQueryJitterMaxMs` (src/unnamed/part_004:16). -/
def dateQueryJitterMaxMs : Nat := 40

/-- Model of the `SubmitOrderResult` structure (src/unnamed/part_001). -/
structure SubmitOrderResult where
  success : Bool
  status : Bool
  message : String
  url : String
deriving Repr, DecidableEq

/-- Model of the `GrabSuccess` structure (src/unnamed/part_001). -/
structure GrabSuccess where
  unitName : String
  depName : String
  doctorName : String
  date : String
  timeSlot : String
  memberName : String
  url : String
deriving Repr, DecidableEq

/-- A Go error value as the engine distinguishes them: its message and
whether it wraps the `ErrLoginRequired` sentinel. -/
structure GrabErr where
  loginRequired : Bool
  msg : String
deriving Repr, DecidableEq

/-- Model of the `GrabResult` structure (src/unnamed/part_004:22). -/
structure GrabResult where
  success : Bool
  message : String
  detail : Option GrabSuccess
  err : Option GrabErr
deriving Repr, DecidableEq

/-- One network call issued by the engine. -/
inductive NetCall where
  | schedule (unitID depID date : String)
  | ticketDetail (unitID depID scheduleID memberID : String)
  | submitOrder
  | serverDatetime
  | rotateProxy
  | clearProxy
deriving Repr, DecidableEq

/-- Environment of responses for one engine run, consumed in call
order. -/
structure EngEnv where
  sched : List SchedOut
  details : List (Option TicketDetail)
  submits : List (Except String SubmitOrderResult)
  rotates : List (Except String String)
  serverTimes : List (Option Int)
  sleeps : List Bool
  throttles : List Bool
  clears : List Bool
  rands : List Nat

/-- Engine state: remaining environment, cancellation flag, whether a
submission has been recorded (`lastSubmitAt` non-zero), the network-call
trace and the emitted log events. -/
structure EngSt where
  env : EngEnv
  cancelled : Bool
  lastSubmitSet : Bool
  trace : List NetCall
  logs : List (String × String)

/-- Initial engine state over an environment. -/
def initSt (env : EngEnv) : EngSt :=
  { env := env, cancelled := false, lastSubmitSet := false, trace := [], logs := [] }

/-- Append a log event (`emitLog`, src/unnamed/part_004:680). -/
def pushLog (st : EngSt) (level msg : String) : EngSt :=
  { st with logs := st.logs ++ [(level, msg)] }

/-- Append a network call to the trace. -/
def pushCall (st : EngSt) (c : NetCall) : EngSt :=
  { st with trace := st.trace ++ [c] }

/-- Pop the next schedule response (exhaustion defaults to an ordinary
failure). -/
def popSched (st : EngSt) : SchedOut × EngSt :=
  match st.env.sched with
  | [] => (SchedOut.fatal false "no response", st)
  | r :: rest => (r, { st with env := { st.env with sched := rest } })

/-- Pop the next ticket-detail response (`none` models a fetch error or
nil detail). -/
def popDetail (st : EngSt) : Option TicketDetail × EngSt :=
  match st.env.details with
  | [] => (none, st)
  | r :: rest => (r, { st with env := { st.env with details := rest } })

/-- Pop the next submission response. -/
def popSubmit (st : EngSt) : Except String SubmitOrderResult × EngSt :=
  match st.env.submits with
  | [] => (Except.error "no response", st)
  | r :: rest => (r, { st with env := { st.env with submits := rest } })

/-- Pop the next proxy-rotation response. -/
def popRotate (st : EngSt) : Except String String × EngSt :=
  match st.env.rotates with
  | [] => (Except.error "no proxy", st)
  | r :: rest => (r, { st with env := { st.env with rotates := rest } })

/-- Pop the next server-time response. -/
def popServerTime (st : EngSt) : Option Int × EngSt :=
  match st.env.serverTimes with
  | [] => (none, st)
  | r :: rest => (r, { st with env := { st.env with serverTimes := rest } })

/-- Pop the next throttle-needed oracle value. -/
def popThrottle (st : EngSt) : Bool × EngSt :=
  match st.env.throttles with
  | [] => (false, st)
  | r :: rest => (r, { st with env := { st.env with throttles := rest } })

/-- Pop the next proxy-clear outcome (`true` = no error). -/
def popClear (st : EngSt) : Bool × EngSt :=
  match st.env.clears with
  | [] => (true, st)
  | r :: rest => (r, { st with env := { st.env with clears := rest } })

/-- Pop the next random draw. -/
def popRand (st : EngSt) : Nat × EngSt :=
  match st.env.rands with
  | [] => (0, st)
  | r :: rest => (r, { st with env := { st.env with rands := rest } })

/-- A cancellable sleep (`sleepWithContext`, src/unnamed/part_004:666):
an already-cancelled context fails immediately; otherwise the next
`sleeps` entry tells whether the sleep completed (`false` cancels the
context). -/
def popSleepCtx (st : EngSt) : Bool × EngSt :=
  if st.cancelled then (false, st)
  else
    match st.env.sleeps with
    | [] => (true, st)
    | ok :: rest =>
        let st := { st with env := { st.env with sleeps := rest } }
        if ok then (true, st) else (false, { st with cancelled := true })

/-- The context error as the engine reports it. -/
def ctxErr : GrabErr := { loginRequired := false, msg := "context canceled" }

/-- Model of `toSet` (src/unnamed/part_004:843) keeping the trimmed
non-blank values; only membership and emptiness are consumed. -/
def toSetL (values : List String) : List String :=
  values.foldr (fun v acc => let v := trimGo v; if v = "" then acc else v :: acc) []

/-- Model of `containsSet` (src/unnamed/part_004:855). -/
def containsSetL (set : List String) (value : String) : Bool :=
  if value = "" then false else set.contains value

/-- Model of `fallback` (src/unnamed/part_004:863). -/
def fallback (primary secondary : String) : String :=
  if trimGo primary ≠ "" then primary else secondary

/-- Insert into an insertion-ordered count map. -/
def bumpCount (m : List (String × Nat)) (k : String) : List (String × Nat) :=
  match m with
  | [] => [(k, 1)]
  | (k', n) :: rest => if k' = k then (k, n + 1) :: rest else (k', n) :: bumpCount rest k

/-- Insertion into a sorted string list (for `sort.Strings`). -/
def insertSorted (x : String) : List String → List String
  | [] => [x]
  | y :: ys => if x ≤ y then x :: y :: ys else y :: insertSorted x ys

/-- Sorted key list, as `sort.Strings`. -/
def sortStrings (l : List String) : List String :=
  l.foldr insertSorted []

/-- Model of `formatCountMap` (src/unnamed/part_004:412). -/
def formatCountMap (values : List (String × Nat)) : String :=
  if values.isEmpty then "-"
  else
    String.intercalate ","
      ((sortStrings (values.map (fun p => p.1))).map
        (fun k => k ++ "=" ++ Nat.repr ((values.lookup k).getD 0)))

/-- Per-date statistics accumulated by `tryGrabDate`
(src/unnamed/part_004:173-184). -/
structure SlotStats where
  matchedDoctor : Nat
  totalSlots : Nat
  checkedSlots : Nat
  matchedSlots : Nat
  filteredByTime : Nat
  timeTypeCounts : List (String × Nat)
  leftByType : List (String × Nat)
  samples : List String

/-- Zeroed statistics. -/
def SlotStats.init : SlotStats :=
  { matchedDoctor := 0, totalSlots := 0, checkedSlots := 0, matchedSlots := 0
    filteredByTime := 0, timeTypeCounts := [], leftByType := [], samples := [] }

/-- Context shared by one date's pass. -/
structure DateCtx where
  config : GrabConfig
  unitID : String
  depID : String
  memberID : String
  date : String
  doctorSet : List String
  timeSet : List String

/-- Either a `return` out of `tryGrabDate` or falling through to the next
doctor/slot with updated statistics. -/
inductive DateStep where
  | ret (r : Except GrabErr (Option GrabSuccess))
  | fall (stats : SlotStats)

/-- Model of `submitOnce` (src/unnamed/part_004:600): the throttle sleep
(cancellable), recording `lastSubmitAt`, then the network submission. -/
def submitOnce (st : EngSt) : Except String SubmitOrderResult × EngSt :=
  let (needWait, st) := if st.lastSubmitSet then popThrottle st else (false, st)
  let (ok, st) :=
    if needWait then
      let st := pushLog st "info" "submit throttle: wait"
      popSleepCtx st
    else (true, st)
  if ¬ ok then (Except.error "context canceled", st)
  else
    let st := { st with lastSubmitSet := true }
    let st := pushCall st NetCall.submitOrder
    popSubmit st

/-- Build the success detail (src/unnamed/part_004:289-303 and
351-365). -/
def mkGrabSuccess (ctx : DateCtx) (docName slotName url : String) : GrabSuccess :=
  { unitName := fallback ctx.config.unitName ctx.config.unitID
    depName := fallback ctx.config.depName ctx.config.depID
    doctorName := docName
    date := ctx.date
    timeSlot := slotName
    memberName := fallback ctx.config.memberName ctx.config.memberID
    url := url }

/-- Clear the proxy with its logs (src/unnamed/part_004:330-335 and
340-346). -/
def clearProxyStep (st : EngSt) : EngSt :=
  let st := pushCall st NetCall.clearProxy
  let (ok, st) := popClear st
  if ok then pushLog st "info" "proxy cleared (direct mode)"
  else pushLog st "warn" "proxy clear failed"

/-- Handling of a failed submission (src/unnamed/part_004:306-378): a
throttling message triggers optional proxy rotation, a randomized
cancellable backoff, at most one retry (only when a proxy was actually
rotated) followed by clearing the proxy; any other failure is logged and
the slot loop continues.  Returns `none` to continue with the next slot,
or the `tryGrabDate` return value. -/
def handleSubmitFailure (ctx : DateCtx) (docName slotName : String) (msg : String)
    (st : EngSt) : Option (Except GrabErr (Option GrabSuccess)) × EngSt :=
  if isTooFastMessage msg then
    let (proxyURL, st) :=
      if ctx.config.useProxySubmit then
        let st := pushCall st NetCall.rotateProxy
        let (r, st) := popRotate st
        match r with
        | Except.error e => ("", pushLog st "warn" ("proxy rotate failed: " ++ e))
        | Except.ok rotated => (rotated, pushLog st "info" ("proxy switched: " ++ rotated))
      else ("", pushLog st "info" "proxy submit disabled, skip proxy retry")
    let (r, st) := popRand st
    let backoff := randomBackoffMs submitBackoffMinMs submitBackoffMaxMs r
    let st := pushLog st "warn" ("submit throttled, backoff " ++ Nat.repr backoff ++ "ms")
    let (ok, st) := popSleepCtx st
    if ¬ ok then
      let st := if proxyURL ≠ "" then clearProxyStep st else st
      (some (Except.error ctxErr), st)
    else if proxyURL ≠ "" then
      let (retry, st) := submitOnce st
      let st := clearProxyStep st
      match retry with
      | Except.error e =>
          (some (Except.ok none), pushLog st "error" ("submit retry error: " ++ e))
      | Except.ok retryResult =>
          if retryResult.success || retryResult.status then
            let success := mkGrabSuccess ctx docName slotName retryResult.url
            let st := pushLog st "success"
              ("success: " ++ success.unitName ++ " / " ++ success.depName ++ " / " ++ docName)
            (some (Except.ok (some success)), st)
          else
            let retryMsg := if retryResult.message = "" then "submit retry failed"
              else retryResult.message
            (some (Except.ok none), pushLog st "warn" retryMsg)
    else (some (Except.ok none), st)
  else (none, pushLog st "error" msg)

/-- Slot loop of `tryGrabDate` (src/unnamed/part_004:196-379). -/
def slotLoop (ctx : DateCtx) (doc : GoMap) (docID : String) :
    List GoVal → SlotStats → EngSt → DateStep × EngSt
  | [], stats, st => (DateStep.fall stats, st)
  | rawSlot :: rest, stats, st =>
      if st.cancelled then (DateStep.ret (Except.error ctxErr), st)
      else
        match asMap rawSlot with
        | none => slotLoop ctx doc docID rest stats st
        | some slot =>
            let timeType := toString (mapIndex slot "time_type")
            let leftNum := toInt (mapIndex slot "left_num")
            let stats := { stats with
              totalSlots := stats.totalSlots + 1
              timeTypeCounts := bumpCount stats.timeTypeCounts timeType
              leftByType := if leftNum > 0 then bumpCount stats.leftByType timeType
                else stats.leftByType }
            let stats :=
              if stats.samples.length < 3 then
                { stats with samples := stats.samples ++
                  [timeType ++ "/" ++ toString (mapIndex slot "time_type_desc") ++
                    " left=" ++ intStr leftNum ++ " id=" ++
                    toString (mapIndex slot "schedule_id")] }
              else stats
            if ¬ ctx.timeSet.isEmpty ∧ ¬ containsSetL ctx.timeSet timeType then
              slotLoop ctx doc docID rest
                { stats with filteredByTime := stats.filteredByTime + 1 } st
            else
              let stats := { stats with checkedSlots := stats.checkedSlots + 1 }
              if leftNum ≤ 0 then slotLoop ctx doc docID rest stats st
              else
                let stats := { stats with matchedSlots := stats.matchedSlots + 1 }
                let scheduleID := toString (mapIndex slot "schedule_id")
                if scheduleID = "" then slotLoop ctx doc docID rest stats st
                else
                  let docName := toString (mapIndex doc "doctor_name")
                  let timeDesc := toString (mapIndex slot "time_type_desc")
                  let st := pushLog st "success"
                    ("found slot: " ++ docName ++ " - " ++ timeDesc ++
                      " (left " ++ intStr leftNum ++ ")")
                  let st := pushCall st
                    (NetCall.ticketDetail ctx.unitID ctx.depID scheduleID ctx.memberID)
                  let (detail?, st) := popDetail st
                  match detail? with
                  | none =>
                      let st := pushLog st "warn" "ticket detail unavailable"
                      slotLoop ctx doc docID rest stats st
                  | some detail =>
                      let times := if detail.times.isEmpty then detail.timeSlots
                        else detail.times
                      if times.isEmpty then slotLoop ctx doc docID rest stats st
                      else if detail.schData = "" ∨ detail.detlidRealtime = "" ∨
                          detail.levelCode = "" then
                        let st := pushLog st "warn" "ticket detail missing fields"
                        slotLoop ctx doc docID rest stats st
                      else
                        let selected := pickTimeSlot times ctx.config.preferredHours
                        let st := pushLog st "info"
                          ("selected time slot: " ++ selected.name)
                        let pair := resolveAddress ctx.config detail
                        if pair.1 = "" ∨ pair.2 = "" then
                          let st := pushLog st "error" "missing address info"
                          slotLoop ctx doc docID rest stats st
                        else
                          let (result, st) := submitOnce st
                          match result with
                          | Except.error e =>
                              let st := pushLog st "error" ("submit error: " ++ e)
                              slotLoop ctx doc docID rest stats st
                          | Except.ok r =>
                              if r.success || r.status then
                                let success := mkGrabSuccess ctx docName selected.name r.url
                                let st := pushLog st "success"
                                  ("success: " ++ success.unitName ++ " / " ++
                                    success.depName ++ " / " ++ docName)
                                (DateStep.ret (Except.ok (some success)), st)
                              else
                                let msg := if r.message = "" then "submit failed"
                                  else r.message
                                let (handled, st) :=
                                  handleSubmitFailure ctx docName selected.name msg st
                                match handled with
                                | some ret => (DateStep.ret ret, st)
                                | none => slotLoop ctx doc docID rest stats st

/-- Doctor loop of `tryGrabDate` (src/unnamed/part_004:186-380). -/
def docLoop (ctx : DateCtx) : List GoMap → SlotStats → EngSt → DateStep × EngSt
  | [], stats, st => (DateStep.fall stats, st)
  | doc :: rest, stats, st =>
      if st.cancelled then (DateStep.ret (Except.error ctxErr), st)
      else
        let docID := toString (mapIndex doc "doctor_id")
        if ¬ ctx.doctorSet.isEmpty ∧ ¬ containsSetL ctx.doctorSet docID then
          docLoop ctx rest stats st
        else
          let stats := { stats with matchedDoctor := stats.matchedDoctor + 1 }
          let schedules := asSlice (mapIndex doc "schedules")
          match slotLoop ctx doc docID schedules stats st with
          | (DateStep.ret r, st) => (DateStep.ret r, st)
          | (DateStep.fall stats, st) => docLoop ctx rest stats st

/-- Diagnostics emitted after an unsuccessful pass
(src/unnamed/part_004:381-408). -/
def dateDiagnostics (ctx : DateCtx) (stats : SlotStats) (st : EngSt) : EngSt :=
  let isPrecise := ¬ ctx.config.doctorIDs.isEmpty ∨ ¬ ctx.config.preferredHours.isEmpty ∨
    ¬ ctx.config.timeTypes.isEmpty
  let st :=
    if stats.matchedDoctor > 0 ∧ stats.matchedSlots = 0 then
      let st := pushLog st "info"
        ("schedule stats: doctors=" ++ Nat.repr stats.matchedDoctor ++
          " slots=" ++ Nat.repr stats.totalSlots ++
          " passed_time=" ++ Nat.repr stats.checkedSlots ++
          " left>0=" ++ Nat.repr stats.matchedSlots ++
          " time_types=" ++ formatCountMap stats.timeTypeCounts ++
          " left_by_type=" ++ formatCountMap stats.leftByType)
      if ¬ stats.samples.isEmpty then
        pushLog st "info" ("schedule samples: " ++ String.intercalate " | " stats.samples)
      else st
    else st
  if isPrecise then
    if ¬ ctx.doctorSet.isEmpty ∧ stats.matchedDoctor = 0 then
      pushLog st "warn" ("精细条件医生在 " ++ ctx.date ++ " 无排班")
    else if stats.matchedDoctor > 0 ∧ stats.matchedSlots = 0 then
      if ¬ ctx.timeSet.isEmpty ∧ stats.filteredByTime > 0 ∧ stats.checkedSlots = 0 then
        pushLog st "warn" ("精细条件时间段在 " ++ ctx.date ++ " 无可用排班")
      else if stats.checkedSlots > 0 then
        pushLog st "warn" ("精细条件排班在 " ++ ctx.date ++ " 无剩余号源")
      else st
    else st
  else if stats.matchedDoctor > 0 ∧ stats.matchedSlots = 0 ∧ stats.checkedSlots > 0 then
    pushLog st "warn" ("排班存在但 " ++ ctx.date ++ " 无剩余号源")
  else st

/-- Model of `tryGrabDate` (src/unnamed/part_004:148). -/
def tryGrabDate (ctx : DateCtx) (st : EngSt) :
    Except GrabErr (Option GrabSuccess) × EngSt :=
  if st.cancelled then (Except.error ctxErr, st)
  else
    let st := pushLog st "info" ("schedule query: " ++ ctx.date)
    let st := pushCall st (NetCall.schedule ctx.unitID ctx.depID ctx.date)
    let (resp, st) := popSched st
    match resp with
    | SchedOut.fatal true _ =>
        let st := pushLog st "error" "登录已失效，请重新扫码"
        (Except.error { loginRequired := true, msg := "登录已失效，请重新扫码" }, st)
    | SchedOut.fatal false m =>
        (Except.ok none, pushLog st "error" ("schedule error: " ++ m))
    | SchedOut.nothing =>
        (Except.ok none, pushLog st "warn" ("no schedule on " ++ ctx.date))
    | SchedOut.docs docs =>
        if docs.isEmpty then
          (Except.ok none, pushLog st "warn" ("no schedule on " ++ ctx.date))
        else
          let st := pushLog st "info"
            ("schedule result: docs=" ++ Nat.repr docs.length)
          match docLoop ctx docs SlotStats.init st with
          | (DateStep.ret r, st) => (r, st)
          | (DateStep.fall stats, st) => (Except.ok none, dateDiagnostics ctx stats st)

/-- Date loop of `tryGrabOnce` (src/unnamed/part_004:128-144), including
the pre-query jitter sleep (plain `time.Sleep`, not cancellable). -/
def dateLoop (config : GrabConfig) (doctorSet timeSet : List String) :
    List String → EngSt → Except GrabErr (Option GrabSuccess) × EngSt
  | [], st => (Except.ok none, st)
  | date :: rest, st =>
      if st.cancelled then (Except.error ctxErr, st)
      else
        let (_, st) := popRand st
        let ctx : DateCtx :=
          { config := config, unitID := config.unitID, depID := config.depID
            memberID := config.memberID, date := date
            doctorSet := doctorSet, timeSet := timeSet }
        match tryGrabDate ctx st with
        | (Except.error e, st) => (Except.error e, st)
        | (Except.ok (some s), st) => (Except.ok (some s), st)
        | (Except.ok none, st) => dateLoop config doctorSet timeSet rest st

/-- Model of `tryGrabOnce` (src/unnamed/part_004:109). -/
def tryGrabOnce (config : GrabConfig) (st : EngSt) :
    Except GrabErr (Option GrabSuccess) × EngSt :=
  let doctorSet := toSetL config.doctorIDs
  let timeSet0 := toSetL config.timeTypes
  let timeSet := if timeSet0.isEmpty then toSetL ["am", "pm"] else timeSet0
  if config.targetDates.isEmpty then (Except.ok none, st)
  else dateLoop config doctorSet timeSet config.targetDates st

/-- The `stopped` result (src/unnamed/part_004:72, 84, 104). -/
def stoppedResult : GrabResult :=
  { success := false, message := "stopped", detail := none, err := some ctxErr }

/-- Attempt loop of `Run` (src/unnamed/part_004:82-106), with fuel for
the unbounded retry loop (fuel exhaustion is a model artifact). -/
def runLoop (config : GrabConfig) : Nat → Nat → EngSt → GrabResult × EngSt
  | 0, _, st =>
      ({ success := false, message := "fuel exhausted", detail := none, err := none }, st)
  | fuel + 1, attempt, st =>
      if st.cancelled then (stoppedResult, st)
      else
        let attempt := attempt + 1
        let st := pushLog st "info" ("attempt " ++ Nat.repr attempt)
        match tryGrabOnce config st with
        | (Except.error e, st) =>
            ({ success := false, message := e.msg, detail := none, err := some e }, st)
        | (Except.ok (some s), st) =>
            let st := pushLog st "success" "grab success"
            ({ success := true, message := "success", detail := some s, err := none }, st)
        | (Except.ok none, st) =>
            if config.maxRetries > 0 ∧ (attempt : Int) ≥ config.maxRetries then
              let st := pushLog st "warn"
                ("max retries reached (" ++ intStr config.maxRetries ++ ")")
              ({ success := false, message := "max retries reached", detail := none
                 err := none }, st)
            else
              let (ok, st) := popSleepCtx st
              if ¬ ok then (stoppedResult, st)
              else runLoop config fuel attempt st

/-- Coarse model of `waitUntil` inside the run (src/unnamed/part_004:547):
its network effect (one server-datetime round trip when the
use-server-time flag is set) and one cancellable coarse wait; the
calendar arithmetic is analysed separately via `waitUntilTrigger`. -/
def waitUntilEng (useServerTime : Bool) (st : EngSt) : EngSt :=
  let st :=
    if useServerTime then
      let st := pushCall st NetCall.serverDatetime
      let (t?, st) := popServerTime st
      match t? with
      | none => pushLog st "warn" "server time unavailable"
      | some _ => pushLog st "info" "time offset"
    else st
  (popSleepCtx st).2

/-- Model of `Grabber.Run` (src/unnamed/part_004:38) for an initialized
grabber: config validation first (zero network calls on failure), then
the optional start-time wait, then the attempt loop. -/
def runGrab (fuel : Nat) (env : EngEnv) (input : Option GoMap) : GrabResult × EngSt :=
  let st := initSt env
  match parseGrabConfig input with
  | Except.error e =>
      let st := pushLog st "error" e
      ({ success := false, message := e, detail := none
         err := some { loginRequired := false, msg := e } }, st)
  | Except.ok config =>
      let st := pushLog st "info" "grab engine started"
      let st := pushLog st "info"
        ("grab config: dates=" ++ String.intercalate "," config.targetDates ++
          " doctor_ids=" ++ String.intercalate "," config.doctorIDs ++
          " time_types=" ++ String.intercalate "," config.timeTypes ++
          " preferred=" ++ String.intercalate "," config.preferredHours)
      let isPrecise := ¬ config.doctorIDs.isEmpty ∨ ¬ config.preferredHours.isEmpty ∨
        ¬ config.timeTypes.isEmpty
      let st := if isPrecise then pushLog st "info" "grab mode: precise"
        else pushLog st "info" "grab mode: fuzzy"
      let st := if config.timeTypes.isEmpty then
          pushLog st "info" "time_types 未设置，默认 am/pm"
        else st
      let st := if config.startTime ≠ "" then waitUntilEng config.useServerTime st else st
      if st.cancelled then (stoppedResult, st)
      else runLoop config fuel 0 st

/-! ## Reference formulations and concrete fixtures -/

/-- Time-segment selection modelled from the claim's words: the first
preferred entry whose name exists among the fetched segments selects the
first segment of that name; otherwise the first fetched segment. -/
def pickTimeSlotSpec (slots : List TimeSlot) (preferred : List String) : TimeSlot :=
  match preferred.find? (fun p => slots.any (fun s => s.name = p)) with
  | some p => (slots.filter (fun s => s.name = p)).headD { name := "", value := "" }
  | none => slots.headD { name := "", value := "" }

/-- Well-formedness of a cookie record after defaulting. -/
def goodRec (r : CookieRecord) : Prop :=
  r.name ≠ "" ∧ r.domain ≠ "" ∧ r.path ≠ ""

/-- An environment with no responses at all. -/
def emptyEnv : EngEnv :=
  { sched := [], details := [], submits := [], rotates := [], serverTimes := []
    sleeps := [], throttles := [], clears := [], rands := [] }

/-- A grab config with every optional field empty. -/
def baseConfig : GrabConfig :=
  { unitID := "u", unitName := "", depID := "d", depName := "", doctorIDs := []
    memberID := "m", memberName := "", targetDates := ["2024-01-01"], timeTypes := []
    preferredHours := [], addressID := "", address := "", startTime := ""
    useServerTime := false, retryInterval := 0, maxRetries := 0, useProxySubmit := true }

/-- A schedule slot with remaining capacity (fixture). -/
def slotA : GoMap :=
  [("time_type", GoVal.vstr "am"), ("time_type_desc", GoVal.vstr "上午"),
   ("left_num", GoVal.vint 3), ("schedule_id", GoVal.vstr "s1")]

/-- A second schedule slot with remaining capacity (fixture). -/
def slotB : GoMap :=
  [("time_type", GoVal.vstr "am"), ("time_type_desc", GoVal.vstr "上午"),
   ("left_num", GoVal.vint 2), ("schedule_id", GoVal.vstr "s2")]

/-- A doctor with one available slot (fixture). -/
def docA : GoMap :=
  [("doctor_id", GoVal.vstr "7"), ("doctor_name", GoVal.vstr "Dr"),
   ("schedules", GoVal.vlist [GoVal.vmap slotA])]

/-- A doctor with two available slots (fixture). -/
def docB : GoMap :=
  [("doctor_id", GoVal.vstr "7"), ("doctor_name", GoVal.vstr "Dr"),
   ("schedules", GoVal.vlist [GoVal.vmap slotA, GoVal.vmap slotB])]

/-- A usable ticket detail (fixture). -/
def detailA : TicketDetail :=
  { times := [{ name := "08:00-08:30", value := "t1" }], timeSlots := []
    schData := "sd", detlidRealtime := "dr", levelCode := "lc", schDate := ""
    orderNo := "", diseaseContent := "", diseaseInput := "", isHot := ""
    hisMemID := "", addressID := "5", address := "门诊大厅", addresses := [] }

/-- The date context of the fixtures with proxy-on-throttle disabled. -/
def ctxNoProxy : DateCtx :=
  { config := { baseConfig with useProxySubmit := false }
    unitID := "u", depID := "d", memberID := "m", date := "2024-01-01"
    doctorSet := [], timeSet := ["am", "pm"] }

/-- The date context of the fixtures with proxy-on-throttle enabled. -/
def ctxProxy : DateCtx :=
  { config := baseConfig
    unitID := "u", depID := "d", memberID := "m", date := "2024-01-01"
    doctorSet := [], timeSet := ["am", "pm"] }

/-- A submission result carrying a known throttling phrase (fixture). -/
def tooFastResp : SubmitOrderResult :=
  { success := false, status := false, message := "操作太快，请稍后重试", url := "" }

/-- A submission result with an ordinary failure message (fixture). -/
def ordFailResp : SubmitOrderResult :=
  { success := false, status := false, message := "号源已满", url := "" }

/-- Environment for the C3 counterexample: one slot, throttled
submission, proxy-on-throttle disabled. -/
def envTooFastNoProxy : EngEnv :=
  { emptyEnv with
    sched := [SchedOut.docs [docA]]
    details := [some detailA]
    submits := [Except.ok tooFastResp]
    sleeps := [true]
    rands := [0] }

/-- Environment for the C3 amended theorem: one slot, throttled
submission, successful proxy rotation and an arbitrary retry outcome. -/
def envTooFastProxy (r : SubmitOrderResult) : EngEnv :=
  { emptyEnv with
    sched := [SchedOut.docs [docA]]
    details := [some detailA]
    submits := [Except.ok tooFastResp, Except.ok r]
    rotates := [Except.ok "http://proxy:1"]
    sleeps := [true]
    throttles := [false]
    rands := [0] }

/-- Environment with an ordinary submit failure on the first of two
slots. -/
def envOrdFail : EngEnv :=
  { emptyEnv with
    sched := [SchedOut.docs [docB]]
    details := [some detailA, some detailA]
    submits := [Except.ok ordFailResp, Except.ok ordFailResp]
    throttles := [false]
    rands := [0] }

/-- Environment where the backoff sleep is cancelled after a successful
proxy rotation. -/
def envTooFastCancelled : EngEnv :=
  { emptyEnv with
    sched := [SchedOut.docs [docA]]
    details := [some detailA]
    submits := [Except.ok tooFastResp]
    rotates := [Except.ok "http://proxy:1"]
    sleeps := [false]
    rands := [0] }

/-- A schedule payload carrying the session-expired code (fixture). -/
def payload10022 : GoMap :=
  [("result_code", GoVal.vstr "0"), ("error_code", GoVal.vstr "10022")]

/-- A successful schedule payload with one valid doctor (fixture). -/
def payloadOkSched : GoMap :=
  [("result_code", GoVal.vstr "1"),
   ("data", GoVal.vmap
     [("doc", GoVal.vlist [GoVal.vmap
        [("doctor_id", GoVal.vstr "7"), ("doctor_name", GoVal.vstr "Dr")]]),
      ("sch", GoVal.vmap
        [("7", GoVal.vmap [("am", GoVal.vlist [GoVal.vmap slotA])])])])]

/-- A valid run input with two target dates (fixture). -/
def inputTwoDates : GoMap :=
  [("unit_id", GoVal.vstr "u"), ("dep_id", GoVal.vstr "d"),
   ("member_id", GoVal.vstr "m"),
   ("target_dates", GoVal.vlist [GoVal.vstr "2024-01-01", GoVal.vstr "2024-01-02"])]

/-- Environment whose only schedule response is a login-required
failure. -/
def envLoginRequired : EngEnv :=
  { emptyEnv with sched := [SchedOut.fatal true "error_code=10022"] }

/-- Cookie list whose record names differ only in case (fixture). -/
def cookiesCaseClash : List CookieRecord :=
  [{ name := "SessionA", value := "1", domain := "d.com", path := "/" },
   { name := "sessiona", value := "2", domain := "d.com", path := "/" }]

/-- Config with explicit request-level address values (fixture). -/
def cfgExplicitAddr : GrabConfig :=
  { baseConfig with addressID := "5", address := "Home" }

/-- Ticket page whose matched member input carries its own stored
address (fixture). -/
def pageMemberAddr : TicketPage :=
  { midInputs := [{ value := "m1", checked := false, areaID := "9", address := "MemberAddr" }]
    inputAddressId := "", inputAddress := "", options := [] }

/-- Ticket detail assembled from `pageMemberAddr` the way
`GetTicketDetail` does (fixture). -/
def detailMemberAddr : TicketDetail :=
  { times := [], timeSlots := [], schData := "", detlidRealtime := "", levelCode := ""
    schDate := "", orderNo := "", diseaseContent := "", diseaseInput := "", isHot := ""
    hisMemID := ""
    addressID := (ticketAddress pageMemberAddr "m1").1
    address := (ticketAddress pageMemberAddr "m1").2.1
    addresses := (ticketAddress pageMemberAddr "m1").2.2 }

/-- A not-yet-ready (404) poll body (fixture). -/
def body404 : QRBody :=
  { errcode := some "404", code := "", hasRedirect := false, redirectParseOk := false
    redirectState := "", redirectCode := "" }

/-- A confirmed-without-code poll body (fixture): a redirect with no
usable authorization code. -/
def body405NoCode : QRBody :=
  { errcode := none, code := "", hasRedirect := true, redirectParseOk := true
    redirectState := "", redirectCode := "" }

/-- Poll response stream with two runs of 404s separated by a
confirmed-without-code response (fixture): 30 + 31 = 61 increments with
no intervening reset. -/
def pollRuns404 : List QRResp :=
  List.replicate 30 (QRResp.body body404) ++ [QRResp.body body405NoCode] ++
    List.replicate 31 (QRResp.body body404)

/-! ## Helper lemmas -/

theorem findSlotNamed_eq_filterHead (p : String) (slots : List TimeSlot) :
    findSlotNamed p slots = (slots.filter (fun s => s.name = p)).head? := by
  induction slots with
  | nil => rfl
  | cons s rest ih =>
      by_cases h : s.name = p
      · simp [findSlotNamed, h, List.filter_cons]
      · simp [findSlotNamed, h, List.filter_cons, ih]

theorem any_eq_findSlotNamed (p : String) (slots : List TimeSlot) :
    slots.any (fun s => s.name = p) = (findSlotNamed p slots).isSome := by
  induction slots with
  | nil => rfl
  | cons s rest ih =>
      by_cases h : s.name = p <;> simp [findSlotNamed, h, ih]

theorem pickBoolWithDefault_absent (input : GoMap) (dv : Bool) (keys : List String)
    (h : ∀ k ∈ keys, mapLookup input k = none) :
    pickBoolWithDefault input dv keys = dv := by
  induction keys with
  | nil => rfl
  | cons k rest ih =>
      have hk := h k (List.mem_cons_self k rest)
      simp only [pickBoolWithDefault, hk]
      exact ih (fun k' hk' => h k' (List.mem_cons_of_mem k hk'))

theorem cookieDefaults_good (r : CookieRecord) (h : r.name ≠ "") :
    goodRec (cookieDefaults r) := by
  refine ⟨h, ?_, ?_⟩ <;> simp only [cookieDefaults] <;> split_ifs <;> simp_all

theorem cookieDefaults_eq_self (r : CookieRecord) (h : goodRec r) :
    cookieDefaults r = r := by
  obtain ⟨-, h2, h3⟩ := h
  cases r
  simp_all [cookieDefaults]

theorem upsertCookie_mem {acc : List (String × CookieRecord)} {k : String}
    {r : CookieRecord} {p : String × CookieRecord} (hp : p ∈ upsertCookie acc k r) :
    p ∈ acc ∨ p = (k, r) := by
  induction acc with
  | nil => simpa [upsertCookie] using hp
  | cons q rest ih =>
      obtain ⟨kk, rr⟩ := q
      by_cases h : kk = k
      · subst h
        simp only [upsertCookie, if_pos rfl] at hp
        rcases List.mem_cons.mp hp with rfl | hp
        · exact Or.inr rfl
        · exact Or.inl (List.mem_cons_of_mem _ hp)
      · simp only [upsertCookie, if_neg h] at hp
        rcases List.mem_cons.mp hp with rfl | hp
        · exact Or.inl (List.mem_cons_self _ _)
        · rcases ih hp with h' | h'
          · exact Or.inl (List.mem_cons_of_mem _ h')
          · exact Or.inr h'

theorem upsertCookie_keys (acc : List (String × CookieRecord)) (k : String)
    (r : CookieRecord) :
    (upsertCookie acc k r).map Prod.fst =
      if k ∈ acc.map Prod.fst then acc.map Prod.fst else acc.map Prod.fst ++ [k] := by
  induction acc with
  | nil => simp [upsertCookie]
  | cons q rest ih =>
      obtain ⟨kk, rr⟩ := q
      by_cases h : kk = k
      · subst h; simp [upsertCookie]
      · have h' : ¬ k = kk := fun hh => h hh.symm
        simp only [upsertCookie, if_neg h, List.map_cons, List.mem_cons, ih]
        by_cases hmem : k ∈ rest.map Prod.fst <;> simp [hmem, h']

theorem upsertCookie_fresh (acc : List (String × CookieRecord)) (k : String)
    (r : CookieRecord) (h : k ∉ acc.map Prod.fst) :
    upsertCookie acc k r = acc ++ [(k, r)] := by
  induction acc with
  | nil => simp [upsertCookie]
  | cons q rest ih =>
      obtain ⟨kk, rr⟩ := q
      simp only [List.map_cons, List.mem_cons] at h
      push_neg at h
      have hne : ¬ kk = k := fun hh => h.1 hh.symm
      simp only [upsertCookie, if_neg hne, List.cons_append]
      rw [ih h.2]

theorem upsertCookie_lookup (acc : List (String × CookieRecord)) (k k' : String)
    (r : CookieRecord) :
    List.lookup k (upsertCookie acc k' r) = if k = k' then some r else List.lookup k acc := by
  induction acc with
  | nil =>
      by_cases h : k = k'
      · simp [upsertCookie, List.lookup, h]
      · have hb : (k == k') = false := beq_eq_false_iff_ne.mpr h
        simp [upsertCookie, List.lookup, hb, h]
  | cons q rest ih =>
      obtain ⟨kk, rr⟩ := q
      by_cases h1 : kk = k'
      · subst h1
        by_cases h2 : k = kk
        · simp [upsertCookie, List.lookup, h2]
        · have hb : (k == kk) = false := beq_eq_false_iff_ne.mpr h2
          simp [upsertCookie, List.lookup, hb, h2]
      · by_cases h2 : k = kk
        · subst h2
          have h3 : ¬ k = k' := fun hh => h1 hh
          simp [upsertCookie, if_neg h1, List.lookup, h3]
        · have hb : (k == kk) = false := beq_eq_false_iff_ne.mpr h2
          simp [upsertCookie, if_neg h1, List.lookup, hb, ih]

theorem normCookieAux_props (l : List CookieRecord) :
    ∀ acc, (∀ p ∈ acc, p.1 = cookieKey p.2 ∧ goodRec p.2) →
      ∀ p ∈ normCookieAux acc l, p.1 = cookieKey p.2 ∧ goodRec p.2 := by
  induction l with
  | nil => intro acc hacc p hp; exact hacc p hp
  | cons r rest ih =>
      intro acc hacc p hp
      by_cases hn : r.name = ""
      · rw [normCookieAux, if_pos hn] at hp
        exact ih acc hacc p hp
      · rw [normCookieAux, if_neg hn] at hp
        refine ih _ ?_ p hp
        intro q hq
        rcases upsertCookie_mem hq with h' | h'
        · exact hacc q h'
        · subst h'
          exact ⟨rfl, cookieDefaults_good r hn⟩

theorem normCookieAux_keys_nodup (l : List CookieRecord) :
    ∀ acc, (acc.map Prod.fst).Nodup → ((normCookieAux acc l).map Prod.fst).Nodup := by
  induction l with
  | nil => intro acc hacc; exact hacc
  | cons r rest ih =>
      intro acc hacc
      by_cases hn : r.name = ""
      · rw [normCookieAux, if_pos hn]; exact ih acc hacc
      · rw [normCookieAux, if_neg hn]
        refine ih _ ?_
        rw [upsertCookie_keys]
        by_cases hmem : cookieKey (cookieDefaults r) ∈ acc.map Prod.fst
        · rwa [if_pos hmem]
        · rw [if_neg hmem]
          refine List.Nodup.append hacc (List.nodup_singleton _) ?_
          intro x hx hx'
          rcases List.mem_singleton.mp hx' with rfl
          exact hmem hx

theorem normCookieAux_fresh (l : List CookieRecord) :
    ∀ acc, (∀ r ∈ l, goodRec r) → (l.map cookieKey).Nodup →
      (∀ r ∈ l, cookieKey r ∉ acc.map Prod.fst) →
      normCookieAux acc l = acc ++ l.map (fun r => (cookieKey r, r)) := by
  induction l with
  | nil => intro acc _ _ _; simp [normCookieAux]
  | cons r rest ih =>
      intro acc hgood hnd hfresh
      have hr : goodRec r := hgood r (List.mem_cons_self _ _)
      have hn : r.name ≠ "" := hr.1
      have hdef : cookieDefaults r = r := cookieDefaults_eq_self r hr
      rw [normCookieAux, if_neg hn]
      show normCookieAux (upsertCookie acc (cookieKey (cookieDefaults r)) (cookieDefaults r)) rest
          = acc ++ List.map (fun r => (cookieKey r, r)) (r :: rest)
      rw [hdef, upsertCookie_fresh acc (cookieKey r) r (hfresh r (List.mem_cons_self _ _))]
      rw [List.map_cons, List.nodup_cons] at hnd
      rw [ih _ (fun q hq => hgood q (List.mem_cons_of_mem _ hq)) hnd.2 ?_]
      · simp
      · intro q hq
        rw [List.map_append]
        intro hmem
        rcases List.mem_append.mp hmem with h' | h'
        · exact hfresh q (List.mem_cons_of_mem _ hq) h'
        · simp only [List.map_cons, List.map_nil, List.mem_singleton] at h'
          exact hnd.1 (h' ▸ List.mem_map_of_mem cookieKey hq)

theorem normalize_members (l : List CookieRecord) :
    ∀ r ∈ normalizeCookieRecords l, ∃ r₀ ∈ l, r₀.name ≠ "" ∧ r = cookieDefaults r₀ := by
  suffices h : ∀ acc p, p ∈ normCookieAux acc l →
      p ∈ acc ∨ ∃ r₀ ∈ l, r₀.name ≠ "" ∧ p.2 = cookieDefaults r₀ by
    intro r hr
    obtain ⟨p, hp, rfl⟩ := List.mem_map.mp hr
    rcases h [] p hp with h' | h'
    · simp at h'
    · exact h'
  induction l with
  | nil => intro acc p hp; exact Or.inl hp
  | cons q rest ih =>
      intro acc p hp
      by_cases hn : q.name = ""
      · rw [normCookieAux, if_pos hn] at hp
        rcases ih acc p hp with h' | ⟨r₀, hr₀, h1, h2⟩
        · exact Or.inl h'
        · exact Or.inr ⟨r₀, List.mem_cons_of_mem _ hr₀, h1, h2⟩
      · rw [normCookieAux, if_neg hn] at hp
        rcases ih _ p hp with h' | ⟨r₀, hr₀, h1, h2⟩
        · rcases upsertCookie_mem h' with h'' | h''
          · exact Or.inl h''
          · exact Or.inr ⟨q, List.mem_cons_self _ _, hn, by rw [h'']⟩
        · exact Or.inr ⟨r₀, List.mem_cons_of_mem _ hr₀, h1, h2⟩

theorem normalize_good (l : List CookieRecord) :
    ∀ r ∈ normalizeCookieRecords l, goodRec r := by
  intro r hr
  obtain ⟨p, hp, rfl⟩ := List.mem_map.mp hr
  exact (normCookieAux_props l [] (by simp) p hp).2

theorem normalize_keys_nodup (l : List CookieRecord) :
    ((normalizeCookieRecords l).map cookieKey).Nodup := by
  have h1 := normCookieAux_props l [] (by simp)
  have h2 := normCookieAux_keys_nodup l [] (by simp)
  have : (normalizeCookieRecords l).map cookieKey = (normCookieAux [] l).map Prod.fst := by
    rw [normalizeCookieRecords, List.map_map]
    exact List.map_congr_left (fun p hp => ((h1 p hp).1).symm)
  rwa [this]

theorem normalize_idem (l : List CookieRecord) :
    normalizeCookieRecords (normalizeCookieRecords l) = normalizeCookieRecords l := by
  have hfresh := normCookieAux_fresh (normalizeCookieRecords l) []
    (normalize_good l) (normalize_keys_nodup l) (by simp)
  rw [normalizeCookieRecords, hfresh]
  simp only [List.nil_append, List.map_map]
  have hcomp : ((fun p : String × CookieRecord => p.2) ∘ fun r : CookieRecord =>
      (cookieKey r, r)) = id := rfl
  rw [hcomp, List.map_id]

theorem lastCookieWithKey_general (k : String) (l : List CookieRecord) :
    ∀ a, lastCookieWithKey a k l =
      match lastCookieWithKey none k l with
      | some r => some r
      | none => a := by
  induction l with
  | nil => intro a; simp [lastCookieWithKey]
  | cons r rest ih =>
      intro a
      by_cases hc : r.name ≠ "" ∧ cookieKey (cookieDefaults r) = k
      · rw [lastCookieWithKey, if_pos hc,
          show lastCookieWithKey none k (r :: rest) =
            lastCookieWithKey (some (cookieDefaults r)) k rest from by
              rw [lastCookieWithKey, if_pos hc]]
        rw [ih (some (cookieDefaults r))]
        cases lastCookieWithKey none k rest <;> simp
      · rw [lastCookieWithKey, if_neg hc,
          show lastCookieWithKey none k (r :: rest) = lastCookieWithKey none k rest from by
            rw [lastCookieWithKey, if_neg hc]]
        exact ih a

theorem lookup_normCookieAux (k : String) (l : List CookieRecord) :
    ∀ acc, List.lookup k (normCookieAux acc l) =
      match lastCookieWithKey none k l with
      | some r => some r
      | none => List.lookup k acc := by
  induction l with
  | nil => intro acc; simp [normCookieAux, lastCookieWithKey]
  | cons r rest ih =>
      intro acc
      by_cases hn : r.name = ""
      · have hc : ¬ (r.name ≠ "" ∧ cookieKey (cookieDefaults r) = k) := by simp [hn]
        rw [normCookieAux, if_pos hn, ih acc, lastCookieWithKey, if_neg hc]
      · by_cases hk : cookieKey (cookieDefaults r) = k
        · have hc : r.name ≠ "" ∧ cookieKey (cookieDefaults r) = k := ⟨hn, hk⟩
          rw [normCookieAux, if_neg hn, ih _, lastCookieWithKey, if_pos hc,
            lastCookieWithKey_general k rest (some (cookieDefaults r))]
          cases lastCookieWithKey none k rest with
          | some x => simp
          | none =>
              simp only
              rw [upsertCookie_lookup, if_pos hk.symm]
        · have hc : ¬ (r.name ≠ "" ∧ cookieKey (cookieDefaults r) = k) := by
            intro hh; exact hk hh.2
          rw [normCookieAux, if_neg hn, ih _, lastCookieWithKey, if_neg hc]
          cases lastCookieWithKey none k rest with
          | some x => simp
          | none =>
              simp only
              rw [upsertCookie_lookup, if_neg (fun hh => hk hh.symm)]

/-! ## Claim theorems -/

/-- C6: for every non-empty list of fetched time segments and every
ordered preferred-hours list, `pickTimeSlot` selects the first entry of
the preferred-hours list (in caller order) whose name exists among the
fetched segments — specifically the first segment bearing that name —
and when no preferred entry matches (or the list is empty) it selects
the first fetched segment. -/
theorem pickTimeSlot_follows_preference (slots : List TimeSlot) (preferred : List String)
    (h : slots ≠ []) : pickTimeSlot slots preferred = pickTimeSlotSpec slots preferred := by
  obtain ⟨s0, rest, rfl⟩ := List.exists_cons_of_ne_nil h
  induction preferred with
  | nil => simp [pickTimeSlot, findPreferredSlot, pickTimeSlotSpec]
  | cons p ps ih =>
      by_cases hp : (s0 :: rest).any (fun s => s.name = p)
      · have hsome : (findSlotNamed p (s0 :: rest)).isSome := by
          rw [← any_eq_findSlotNamed]; exact hp
        obtain ⟨v, hv⟩ := Option.isSome_iff_exists.mp hsome
        have hfilter : ((s0 :: rest).filter (fun s => s.name = p)).head? = some v := by
          rw [← findSlotNamed_eq_filterHead]; exact hv
        have hfind : List.find? (fun q => (s0 :: rest).any (fun s => s.name = q)) (p :: ps)
            = some p := List.find?_cons_of_pos _ (by simpa using hp)
        simp only [pickTimeSlot, findPreferredSlot, hv, pickTimeSlotSpec, hfind]
        obtain ⟨t, ht⟩ : ∃ t, (s0 :: rest).filter (fun s => s.name = p) = v :: t := by
          cases hf : (s0 :: rest).filter (fun s => s.name = p) with
          | nil => rw [hf] at hfilter; simp at hfilter
          | cons x t => rw [hf] at hfilter; simp at hfilter; exact ⟨t, by rw [hfilter]⟩
        simp [ht]
      · have hfalse : (s0 :: rest).any (fun s => s.name = p) = false := by
          simpa using hp
        have hnone : findSlotNamed p (s0 :: rest) = none := by
          have hiso := any_eq_findSlotNamed p (s0 :: rest)
          rw [hfalse] at hiso
          exact Option.not_isSome_iff_eq_none.mp (by rw [← hiso]; simp)
        have hfind : List.find? (fun q => (s0 :: rest).any (fun s => s.name = q)) (p :: ps)
            = List.find? (fun q => (s0 :: rest).any (fun s => s.name = q)) ps :=
          List.find?_cons_of_neg _ (by simpa using hp)
        simp only [pickTimeSlot, findPreferredSlot, hnone, pickTimeSlotSpec, hfind]
        simpa [pickTimeSlot, pickTimeSlotSpec] using ih

/-- Witness for C6 at a concrete input. -/
theorem pickTimeSlot_follows_preference_witness :
    ([{ name := "am", value := "1" }, { name := "pm", value := "2" }] : List TimeSlot) ≠ []
    ∧ pickTimeSlot [{ name := "am", value := "1" }, { name := "pm", value := "2" }] ["pm"]
      = pickTimeSlotSpec [{ name := "am", value := "1" }, { name := "pm", value := "2" }] ["pm"] :=
  ⟨by decide, pickTimeSlot_follows_preference _ _ (by decide)⟩

/-- C2: over any serial sequence of completed submissions of one
`Grabber` instance, consecutive submission start instants are at least
`submitMinIntervalMs` (1.8s) apart: before every submission, when less
than the interval has elapsed since the recorded last submission, the
engine sleeps exactly the remainder (cancellably) before submitting. -/
theorem submit_throttle_spacing (last : Option Nat) (ds : List (Nat × Nat)) :
    List.Chain' (fun a b => a + submitMinIntervalMs ≤ b)
      (last.toList ++ runSubmits last ds) := by
  induction ds generalizing last with
  | nil => cases last <;> simp [runSubmits]
  | cons de rest ih =>
      obtain ⟨d, eps⟩ := de
      cases last with
      | none =>
          have h := ih (some (submitStartAt none d eps))
          simpa [runSubmits] using h
      | some l =>
          show List.Chain' _ (l :: submitStartAt (some l) (l + d) eps ::
            runSubmits (some (submitStartAt (some l) (l + d) eps)) rest)
          rw [List.chain'_cons]
          constructor
          · simp only [submitStartAt, throttleWait, submitMinIntervalMs]
            split_ifs <;> omega
          · have h := ih (some (submitStartAt (some l) (l + d) eps))
            simpa [runSubmits] using h

/-- C7: the clock-skew offset of one timed round trip is
`serverTime − (requestSentTime + roundTrip/2)`, and with the
use-server-time flag set the trigger instant is the configured target
shifted earlier by that offset — a calibrated offset of +400ms fires
400ms earlier than the naive local wall-clock target. -/
theorem start_trigger_calibration (now target start stop server : Int) :
    calibrateTimeOffset (some (start, stop, server)) =
      server - (start + Int.tdiv (stop - start) 2)
    ∧ (calibrateTimeOffset (some (start, stop, server)) = 400 →
        target - 400 > now →
        waitUntilTrigger now target true (some (start, stop, server)) = some (target - 400)
        ∧ waitUntilTrigger now target false (some (start, stop, server)) = some target) := by
  refine ⟨rfl, fun hoff hfut => ⟨?_, ?_⟩⟩
  · simp only [waitUntilTrigger, if_true, hoff]
    rw [if_neg (by omega)]
  · simp only [waitUntilTrigger, if_false]
    rw [if_neg (by omega)]
    norm_num

/-- Witness for C7 at a concrete calibration sample. -/
theorem start_trigger_calibration_witness :
    calibrateTimeOffset (some ((0 : Int), (0 : Int), (400 : Int))) = 400
    ∧ waitUntilTrigger 0 100000 true (some ((0 : Int), (0 : Int), (400 : Int)))
        = some 99600
    ∧ waitUntilTrigger 0 100000 false (some ((0 : Int), (0 : Int), (400 : Int)))
        = some 100000 := by
  have h := start_trigger_calibration 0 100000 0 0 400
  have h2 := h.2 (by decide) (by decide)
  exact ⟨by decide, h2.1, h2.2⟩

/-- C10: `parseGrabConfig` accepts the legacy key aliases: with
`target_dates` absent/empty and a non-blank `target_date`, the target
list becomes that single date; `doctor_id` similarly backs `doctor_ids`;
`time_slots` backs `time_types`; and the proxy-on-throttle flag defaults
to `true` when neither `use_proxy_submit` nor `proxy_submit_enabled` is
present. -/
theorem parse_legacy_aliases (input : GoMap)
    (hu : pickString input ["unit_id"] ≠ "")
    (hd : pickString input ["dep_id"] ≠ "")
    (hm : pickString input ["member_id"] ≠ "")
    (htd : pickStringSlice input "target_dates" = [])
    (htv : pickString input ["target_date"] ≠ "") :
    ∃ cfg, parseGrabConfig (some input) = Except.ok cfg
      ∧ cfg.targetDates = [pickString input ["target_date"]]
      ∧ (pickStringSlice input "doctor_ids" = [] → pickString input ["doctor_id"] ≠ "" →
          cfg.doctorIDs = [pickString input ["doctor_id"]])
      ∧ (pickStringSlice input "time_types" = [] →
          cfg.timeTypes = pickStringSlice input "time_slots")
      ∧ (mapLookup input "use_proxy_submit" = none →
          mapLookup input "proxy_submit_enabled" = none →
          cfg.useProxySubmit = true) := by
  refine ⟨{ unitID := pickString input ["unit_id"]
            unitName := pickString input ["unit_name"]
            depID := pickString input ["dep_id"]
            depName := pickString input ["dep_name"]
            doctorIDs :=
              if pickStringSlice input "doctor_ids" = [] then
                if pickString input ["doctor_id"] ≠ "" then [pickString input ["doctor_id"]]
                else []
              else pickStringSlice input "doctor_ids"
            memberID := pickString input ["member_id"]
            memberName := pickString input ["member_name"]
            targetDates := [pickString input ["target_date"]]
            timeTypes :=
              if pickStringSlice input "time_types" = [] then pickStringSlice input "time_slots"
              else pickStringSlice input "time_types"
            preferredHours := pickStringSlice input "preferred_hours"
            addressID := pickString input ["addressId", "address_id"]
            address := pickString input ["address"]
            startTime := pickString input ["start_time"]
            useServerTime := pickBool input "use_server_time"
            retryInterval := pickFloat input "retry_interval"
            maxRetries := pickInt input "max_retries"
            useProxySubmit :=
              pickBoolWithDefault input true ["use_proxy_submit", "proxy_submit_enabled"] },
    ?_, rfl, ?_, ?_, ?_⟩
  · simp only [parseGrabConfig, htd, if_pos (show ([] : List String) = [] from rfl),
      if_pos htv]
    rw [if_neg (by simp [hu, hd, hm])]
    simp
  · intro h1 h2
    simp only [h1, if_pos (show ([] : List String) = [] from rfl), if_pos h2]
    simp
  · intro h1
    simp only [h1, if_pos (show ([] : List String) = [] from rfl)]
    simp
  · intro _ _
    exact pickBoolWithDefault_absent input true _ (by
      intro k hk
      rcases List.mem_cons.mp hk with rfl | hk
      · assumption
      · rcases List.mem_cons.mp hk with rfl | hk
        · assumption
        · simp at hk)

/-- Witness for C10 at a concrete input using all four aliases. -/
theorem parse_legacy_aliases_witness :
    (pickString [("unit_id", GoVal.vstr "u"), ("dep_id", GoVal.vstr "d"),
        ("member_id", GoVal.vstr "m"), ("target_date", GoVal.vstr "2024-01-01"),
        ("doctor_id", GoVal.vstr "7")] ["unit_id"] ≠ "")
    ∧ ∃ cfg, parseGrabConfig (some [("unit_id", GoVal.vstr "u"), ("dep_id", GoVal.vstr "d"),
        ("member_id", GoVal.vstr "m"), ("target_date", GoVal.vstr "2024-01-01"),
        ("doctor_id", GoVal.vstr "7")]) = Except.ok cfg
      ∧ cfg.targetDates = [pickString [("unit_id", GoVal.vstr "u"), ("dep_id", GoVal.vstr "d"),
          ("member_id", GoVal.vstr "m"), ("target_date", GoVal.vstr "2024-01-01"),
          ("doctor_id", GoVal.vstr "7")] ["target_date"]]
      ∧ (pickStringSlice [("unit_id", GoVal.vstr "u"), ("dep_id", GoVal.vstr "d"),
          ("member_id", GoVal.vstr "m"), ("target_date", GoVal.vstr "2024-01-01"),
          ("doctor_id", GoVal.vstr "7")] "doctor_ids" = [] →
          pickString [("unit_id", GoVal.vstr "u"), ("dep_id", GoVal.vstr "d"),
            ("member_id", GoVal.vstr "m"), ("target_date", GoVal.vstr "2024-01-01"),
            ("doctor_id", GoVal.vstr "7")] ["doctor_id"] ≠ "" →
          cfg.doctorIDs = [pickString [("unit_id", GoVal.vstr "u"), ("dep_id", GoVal.vstr "d"),
            ("member_id", GoVal.vstr "m"), ("target_date", GoVal.vstr "2024-01-01"),
            ("doctor_id", GoVal.vstr "7")] ["doctor_id"]])
      ∧ (pickStringSlice [("unit_id", GoVal.vstr "u"), ("dep_id", GoVal.vstr "d"),
          ("member_id", GoVal.vstr "m"), ("target_date", GoVal.vstr "2024-01-01"),
          ("doctor_id", GoVal.vstr "7")] "time_types" = [] →
          cfg.timeTypes = pickStringSlice [("unit_id", GoVal.vstr "u"), ("dep_id", GoVal.vstr "d"),
            ("member_id", GoVal.vstr "m"), ("target_date", GoVal.vstr "2024-01-01"),
            ("doctor_id", GoVal.vstr "7")] "time_slots")
      ∧ (mapLookup [("unit_id", GoVal.vstr "u"), ("dep_id", GoVal.vstr "d"),
          ("member_id", GoVal.vstr "m"), ("target_date", GoVal.vstr "2024-01-01"),
          ("doctor_id", GoVal.vstr "7")] "use_proxy_submit" = none →
          mapLookup [("unit_id", GoVal.vstr "u"), ("dep_id", GoVal.vstr "d"),
            ("member_id", GoVal.vstr "m"), ("target_date", GoVal.vstr "2024-01-01"),
            ("doctor_id", GoVal.vstr "7")] "proxy_submit_enabled" = none →
          cfg.useProxySubmit = true) :=
  ⟨by decide, parse_legacy_aliases _ (by decide) (by decide) (by decide) rfl (by decide)⟩

/-- C1: for every configuration map whose resolved `unit_id`, `dep_id`,
`member_id` or target-dates list is missing or empty, `Run` returns a
validation-failure result and issues zero network calls. -/
theorem run_validation_failfast (input : GoMap)
    (h : pickString input ["unit_id"] = "" ∨ pickString input ["dep_id"] = "" ∨
      pickString input ["member_id"] = "" ∨
      (pickStringSlice input "target_dates" = [] ∧ pickString input ["target_date"] = ""))
    (fuel : Nat) (env : EngEnv) :
    (runGrab fuel env (some input)).1.success = false
    ∧ (runGrab fuel env (some input)).1.message =
        "missing required fields (unit_id/dep_id/member_id/target_dates)"
    ∧ (runGrab fuel env (some input)).2.trace = [] := by
  have hpc : parseGrabConfig (some input) =
      Except.error "missing required fields (unit_id/dep_id/member_id/target_dates)" := by
    simp only [parseGrabConfig]
    rcases h with h | h | h | ⟨h1, h2⟩
    · rw [if_pos (Or.inl h)]
    · rw [if_pos (Or.inr (Or.inl h))]
    · rw [if_pos (Or.inr (Or.inr (Or.inl h)))]
    · rw [if_pos (Or.inr (Or.inr (Or.inr (by simp [h1, h2]))))]
  simp [runGrab, hpc, initSt, pushLog]

/-- Witness for C1 at the empty configuration map. -/
theorem run_validation_failfast_witness :
    (pickString [] ["unit_id"] = "" ∨ pickString [] ["dep_id"] = "" ∨
      pickString [] ["member_id"] = "" ∨
      (pickStringSlice [] "target_dates" = [] ∧ pickString [] ["target_date"] = ""))
    ∧ ((runGrab 1 emptyEnv (some [])).1.success = false
      ∧ (runGrab 1 emptyEnv (some [])).1.message =
          "missing required fields (unit_id/dep_id/member_id/target_dates)"
      ∧ (runGrab 1 emptyEnv (some [])).2.trace = []) :=
  ⟨Or.inl rfl, run_validation_failfast [] (Or.inl rfl) 1 emptyEnv⟩

/-- C5 counterexample: the code's dedup key lower-cases only the domain,
so two records whose names differ only in case both survive a
save/reload round trip, while the claimed case-insensitive dedup by
(domain, path, name) keeps only one — the sets differ. -/
theorem cookie_ci_dedup_counterexample :
    saveThenLoad cookiesCaseClash =
      some [{ name := "SessionA", value := "1", domain := "d.com", path := "/" },
            { name := "sessiona", value := "2", domain := "d.com", path := "/" }]
    ∧ dedupCaseInsensitive cookiesCaseClash =
        [{ name := "sessiona", value := "2", domain := "d.com", path := "/" }]
    ∧ ({ name := "SessionA", value := "1", domain := "d.com", path := "/" } : CookieRecord)
        ∉ dedupCaseInsensitive cookiesCaseClash := by
  refine ⟨rfl, rfl, ?_⟩
  decide

/-- C5 (amended): saving a cookie list and reloading yields exactly the
list deduplicated by (lower-cased domain, path, name) — case-insensitive
in the domain only — with last write winning per key; a legacy flat map
is normalized to records with the default domain and path. -/
theorem cookie_roundtrip_amended (l : List CookieRecord) (dict : List (String × String))
    (k : String) (h : normalizeCookieRecords l ≠ []) :
    saveThenLoad l = some (normalizeCookieRecords l)
    ∧ (∀ r ∈ loadCookieLegacy dict, r.domain = ".91160.com" ∧ r.path = "/")
    ∧ List.lookup k (normCookieAux [] l) = lastCookieWithKey none k l := by
  refine ⟨?_, ?_, ?_⟩
  · rw [saveThenLoad, saveCookieFile]
    rw [if_neg h]
    simp only [loadCookieList]
    rw [normalize_idem]
  · intro r hr
    obtain ⟨r₀, hr₀, -, rfl⟩ := normalize_members _ r hr
    obtain ⟨p, -, rfl⟩ := List.mem_map.mp hr₀
    constructor <;> simp [cookieDefaults]
  · rw [lookup_normCookieAux k l []]
    cases lastCookieWithKey none k l <;> simp [List.lookup]

/-- Witness for the amended C5 at a concrete cookie list, legacy map and
key. -/
theorem cookie_roundtrip_amended_witness :
    normalizeCookieRecords cookiesCaseClash ≠ []
    ∧ (saveThenLoad cookiesCaseClash = some (normalizeCookieRecords cookiesCaseClash)
      ∧ (∀ r ∈ loadCookieLegacy [("access_hash", "h")],
          r.domain = ".91160.com" ∧ r.path = "/")
      ∧ List.lookup "d.com|/|SessionA" (normCookieAux [] cookiesCaseClash)
          = lastCookieWithKey none "d.com|/|SessionA" cookiesCaseClash) :=
  ⟨by decide, cookie_roundtrip_amended cookiesCaseClash [("access_hash", "h")]
    "d.com|/|SessionA" (by decide)⟩

/-- C8 counterexample: with valid explicit request-level address values
and a member whose own stored address is present on the page, the code
returns the explicit values, while the claimed precedence ("the member's
own stored address overrides the result") demands the member's
address. -/
theorem address_resolution_counterexample :
    resolveAddress cfgExplicitAddr detailMemberAddr = ("5", "Home")
    ∧ resolveAddressClaim cfgExplicitAddr pageMemberAddr "m1" = ("9", "MemberAddr")
    ∧ resolveAddress cfgExplicitAddr detailMemberAddr
        ≠ resolveAddressClaim cfgExplicitAddr pageMemberAddr "m1" := by
  refine ⟨rfl, rfl, ?_⟩
  decide

/-- C8 (amended): the resolution is pairwise with explicit request-level
values taking precedence over everything, including the member's stored
address: (a) both explicit components valid → they are returned
unchanged; (b) else both components come from the detail's resolved
pair when that is fully valid; (c) else both come from the first
option-list entry with both components valid; and (d) within the fetched
detail, the member's own stored address overrides the page-derived
values per component.  Empty, "0", "-1" and placeholder values are
treated as absent throughout (they normalize to `""`). -/
theorem address_resolution_amended (config : GrabConfig) (detail : TicketDetail)
    (page : TicketPage) (memberID : String) (m : MidInput) :
    (normalizeAddressID config.addressID ≠ "" → normalizeAddressText config.address ≠ "" →
      resolveAddress config detail =
        (normalizeAddressID config.addressID, normalizeAddressText config.address))
    ∧ ((normalizeAddressID config.addressID = "" ∨ normalizeAddressText config.address = "") →
        normalizeAddressID detail.addressID ≠ "" → normalizeAddressText detail.address ≠ "" →
        resolveAddress config detail =
          (normalizeAddressID detail.addressID, normalizeAddressText detail.address))
    ∧ (∀ pr, (normalizeAddressID config.addressID = "" ∨
          normalizeAddressText config.address = "") →
        (normalizeAddressID detail.addressID = "" ∨
          normalizeAddressText detail.address = "") →
        findValidAddress detail.addresses = some pr →
        resolveAddress config detail = pr)
    ∧ (selectMid memberID page.midInputs = some m →
        (normalizeAddressID m.areaID ≠ "" →
          (ticketAddress page memberID).1 = normalizeAddressID m.areaID)
        ∧ (normalizeAddressText m.address ≠ "" →
          (ticketAddress page memberID).2.1 = normalizeAddressText m.address)) := by
  refine ⟨?_, ?_, ?_, ?_⟩
  · intro h1 h2
    have hor : ¬ (normalizeAddressID config.addressID = "" ∨
        normalizeAddressText config.address = "") := by
      intro hh; rcases hh with hh | hh
      · exact h1 hh
      · exact h2 hh
    simp only [resolveAddress, if_neg hor]
    rw [if_neg (by intro hh; exact hor hh.1)]
  · intro h0 h1 h2
    have hor : ¬ (normalizeAddressID detail.addressID = "" ∨
        normalizeAddressText detail.address = "") := by
      intro hh; rcases hh with hh | hh
      · exact h1 hh
      · exact h2 hh
    simp only [resolveAddress, if_pos h0]
    rw [if_neg (by intro hh; exact hor hh.1)]
  · intro pr h0 h1 hfind
    have hne : detail.addresses ≠ [] := by
      intro hnil
      rw [hnil] at hfind
      simp [findValidAddress] at hfind
    simp only [resolveAddress, if_pos h0]
    rw [if_pos ⟨h1, hne⟩, hfind]
  · intro hm
    constructor
    · intro h1
      simp only [ticketAddress, hm]
      rw [if_pos h1]
    · intro h2
      simp only [ticketAddress, hm]
      rw [if_pos h2]

/-- Witness for the amended C8 at concrete inputs. -/
theorem address_resolution_amended_witness :
    (normalizeAddressID cfgExplicitAddr.addressID ≠ ""
      ∧ normalizeAddressText cfgExplicitAddr.address ≠ ""
      ∧ resolveAddress cfgExplicitAddr detailMemberAddr =
          (normalizeAddressID cfgExplicitAddr.addressID,
            normalizeAddressText cfgExplicitAddr.address))
    ∧ (selectMid "m1" pageMemberAddr.midInputs =
        some { value := "m1", checked := false, areaID := "9", address := "MemberAddr" }
      ∧ (ticketAddress pageMemberAddr "m1").1 = normalizeAddressID "9"
      ∧ (ticketAddress pageMemberAddr "m1").2.1 = normalizeAddressText "MemberAddr") := by
  have h := address_resolution_amended cfgExplicitAddr detailMemberAddr pageMemberAddr "m1"
    { value := "m1", checked := false, areaID := "9", address := "MemberAddr" }
  have h4 := h.2.2.2 (by decide)
  exact ⟨⟨by decide, by decide, h.1 (by decide) (by decide)⟩,
    ⟨by decide, h4.1 (by decide), h4.2 (by decide)⟩⟩

/-- C4 counterexample: after a session-expired (10022) response on the
first access token, `GetSchedule` does not abort — it continues with the
second token and returns its doctors, where the claim ("aborts
immediately without trying the remaining access-token values") demands
the immediate `LoginRequired` failure produced by the spec-side model. -/
theorem schedule_login_abort_counterexample :
    getScheduleGo ["k1", "k2"]
        [SchedResp.payload payload10022, SchedResp.payload payloadOkSched]
      = SchedOut.docs (validDocsOf payloadOkSched)
    ∧ getScheduleSpecAbort ["k1", "k2"]
        [SchedResp.payload payload10022, SchedResp.payload payloadOkSched]
      = SchedOut.fatal true "error_code=10022"
    ∧ SchedOut.docs (validDocsOf payloadOkSched)
        ≠ SchedOut.fatal true "error_code=10022" := by
  refine ⟨rfl, rfl, ?_⟩
  intro h
  cases h

/-- C4 (amended): an explicit session-expired (10022) schedule response
sets a login-expired flag and the query continues with the remaining
access tokens; ordinary failures also continue (storing their message);
only after all tokens fail with the flag set does `GetSchedule` return
the distinct `LoginRequired` error (as it does when no token exists at
all); and a `LoginRequired` error from schedule querying aborts the
whole engine run immediately, surfaced distinctly from ordinary
failures. -/
theorem schedule_login_amended (p : GoMap) (rest : List SchedResp) (lastE : String)
    (flag : Bool) (fuel : Nat) :
    (toString (mapIndex p "result_code") ≠ "1" →
      toString (mapIndex p "error_code") = "10022" →
      schedLoop (SchedResp.payload p :: rest) lastE flag = schedLoop rest lastE true)
    ∧ (toString (mapIndex p "result_code") ≠ "1" →
        toString (mapIndex p "error_code") ≠ "10022" →
        schedLoop (SchedResp.payload p :: rest) lastE flag =
          schedLoop rest (apiErrorMsg p) flag)
    ∧ schedLoop [] lastE true = SchedOut.fatal true "error_code=10022"
    ∧ getScheduleGo [] rest = SchedOut.fatal true "missing access_hash"
    ∧ (1 ≤ fuel →
        (runGrab fuel envLoginRequired (some inputTwoDates)).1.err =
          some { loginRequired := true, msg := "登录已失效，请重新扫码" }
        ∧ (runGrab fuel envLoginRequired (some inputTwoDates)).1.success = false
        ∧ (runGrab fuel envLoginRequired (some inputTwoDates)).2.trace =
            [NetCall.schedule "u" "d" "2024-01-01"]) := by
  refine ⟨?_, ?_, by simp [schedLoop], rfl, ?_⟩
  · intro h1 h2
    simp only [schedLoop]
    rw [if_neg h1, if_pos h2]
  · intro h1 h2
    simp only [schedLoop]
    rw [if_neg h1, if_neg h2]
  · intro hf
    match fuel, hf with
    | n + 1, _ => exact ⟨rfl, rfl, rfl⟩

/-- Witness for the amended C4 at concrete inputs. -/
theorem schedule_login_amended_witness :
    (toString (mapIndex payload10022 "result_code") ≠ "1"
      ∧ toString (mapIndex payload10022 "error_code") = "10022"
      ∧ schedLoop [SchedResp.payload payload10022] "" false = schedLoop [] "" true)
    ∧ schedLoop [] "" true = SchedOut.fatal true "error_code=10022"
    ∧ ((runGrab 1 envLoginRequired (some inputTwoDates)).1.err =
        some { loginRequired := true, msg := "登录已失效，请重新扫码" }
      ∧ (runGrab 1 envLoginRequired (some inputTwoDates)).2.trace =
          [NetCall.schedule "u" "d" "2024-01-01"]) := by
  have h := schedule_login_amended payload10022 [] "" false 1
  have h5 := h.2.2.2.2 (by omega)
  exact ⟨⟨by decide, by decide, h.1 (by decide) (by decide)⟩, h.2.2.1, h5.1, h5.2.2⟩

theorem pollLoop_leftover_le (t : Nat) :
    ∀ (rs : List QRResp) (elapsed r : Nat),
      ((pollLoop t rs elapsed r).2).length ≤ rs.length := by
  intro rs
  induction rs with
  | nil => intro elapsed r; simp [pollLoop]
  | cons x rest ih =>
      intro elapsed r
      by_cases he : elapsed > t
      · simp only [pollLoop]
        rw [if_pos he]
      · simp only [pollLoop]
        rw [if_neg he]
        cases x with
        | reqErr => exact Nat.le_succ_of_le (ih _ _)
        | doErr => exact Nat.le_succ_of_le (ih _ _)
        | readErr => exact Nat.le_succ_of_le (ih _ _)
        | body b =>
            simp only
            split_ifs <;>
              first
              | exact Nat.le_succ_of_le (ih _ _)
              | simp

theorem pollLoop_time_bound (t : Nat) :
    ∀ (rs : List QRResp) (elapsed r : Nat),
      elapsed + 1000 * (rs.length - ((pollLoop t rs elapsed r).2).length) ≤ t + 1000
      ∨ ((pollLoop t rs elapsed r).2).length = rs.length := by
  intro rs
  induction rs with
  | nil => intro elapsed r; right; simp [pollLoop]
  | cons x rest ih =>
      intro elapsed r
      by_cases he : elapsed > t
      · right
        simp only [pollLoop]
        rw [if_pos he]
      · left
        have he' : elapsed ≤ t := Nat.le_of_not_lt he
        simp only [pollLoop]
        rw [if_neg he]
        cases x with
        | reqErr =>
            dsimp only
            simp only [List.length_cons]
            have hle := pollLoop_leftover_le t rest (elapsed + 1000) r
            rcases ih (elapsed + 1000) r with h | h <;> omega
        | doErr =>
            dsimp only
            simp only [List.length_cons]
            have hle := pollLoop_leftover_le t rest (elapsed + 2000) r
            rcases ih (elapsed + 2000) r with h | h <;> omega
        | readErr =>
            dsimp only
            simp only [List.length_cons]
            have hle := pollLoop_leftover_le t rest (elapsed + 1000) r
            rcases ih (elapsed + 1000) r with h | h <;> omega
        | body b =>
            dsimp only
            simp only [List.length_cons]
            split_ifs <;>
              first
              | (simp only [List.length_cons]; omega)
              | (rename_i h1 h2
                 have hle := pollLoop_leftover_le t rest (elapsed + 1000) (r + 1)
                 rcases ih (elapsed + 1000) (r + 1) with h | h <;> omega)
              | (have hle0 := pollLoop_leftover_le t rest (elapsed + 1000) 0
                 rcases ih (elapsed + 1000) 0 with h | h <;> omega)
              | (have hler := pollLoop_leftover_le t rest (elapsed + 1000) r
                 rcases ih (elapsed + 1000) r with h | h <;> omega)

/-- C9 counterexample: a confirmed-without-code (405) response between
two runs of 404s does not reset the not-yet-ready counter, so the poll
declares Expired after 30+31 increments although no run of more than 31
consecutive 404/402 responses occurred (far below the claimed cap of 60
consecutive occurrences) and the wall clock is far below the timeout. -/
theorem qr_counter_reset_counterexample :
    (pollStatus 0 pollRuns404).1 = PollOut.expiredCounter
    ∧ maxRun404 pollRuns404 = 31
    ∧ (31 ≤ 60)
    ∧ pollMessage PollOut.expiredCounter = "qr expired" := by
  refine ⟨by decide, by decide, by omega, rfl⟩

/-- C9 (amended): every 404/402 response increments the not-yet-ready
counter and the poll declares Expired when it passes 60; the counter is
reset only by the waiting (408) and scanned (201) statuses —
confirmed-without-code (405) responses and unrecognized statuses leave
it unchanged; and the overall wall-clock timeout independently bounds
the whole poll: the check at the top of each iteration stops it, and at
most `timeout/1000 + 1` responses can ever be consumed since every
iteration sleeps at least one second. -/
theorem qr_poll_amended (t : Nat) (rest rs : List QRResp) (x : QRResp)
    (elapsed retry404 : Nat) (b : QRBody) :
    (elapsed ≤ t →
      ((pollStatusOf b = "404" ∨ pollStatusOf b = "402") → retry404 + 1 ≤ 60 →
        pollLoop t (QRResp.body b :: rest) elapsed retry404 =
          pollLoop t rest (elapsed + 1000) (retry404 + 1))
      ∧ ((pollStatusOf b = "404" ∨ pollStatusOf b = "402") → retry404 + 1 > 60 →
          pollLoop t (QRResp.body b :: rest) elapsed retry404 =
            (PollOut.expiredCounter, rest))
      ∧ ((pollStatusOf b = "408" ∨ pollStatusOf b = "201") →
          pollLoop t (QRResp.body b :: rest) elapsed retry404 =
            pollLoop t rest (elapsed + 1000) 0)
      ∧ (pollStatusOf b = "405" → b.code = "" →
          ¬ (b.hasRedirect = true ∧ b.redirectParseOk = true ∧ b.redirectCode ≠ "") →
          pollLoop t (QRResp.body b :: rest) elapsed retry404 =
            pollLoop t rest (elapsed + 1000) retry404)
      ∧ (pollStatusOf b ∉ (["408", "404", "402", "201", "405"] : List String) →
          pollLoop t (QRResp.body b :: rest) elapsed retry404 =
            pollLoop t rest (elapsed + 1000) retry404))
    ∧ (elapsed > t →
        pollLoop t (x :: rs) elapsed retry404 = (PollOut.expiredTimeout, x :: rs))
    ∧ (elapsed + 1000 * (rs.length - ((pollLoop t rs elapsed retry404).2).length) ≤ t + 1000
        ∨ ((pollLoop t rs elapsed retry404).2).length = rs.length) := by
  refine ⟨fun he => ⟨?_, ?_, ?_, ?_, ?_⟩, ?_, pollLoop_time_bound t rs elapsed retry404⟩
  · intro hs h61
    simp only [pollLoop]
    rw [if_neg (by omega)]
    rw [if_neg (by rcases hs with h | h <;> simp [h])]
    rw [if_pos hs, if_neg (by omega)]
  · intro hs h61
    simp only [pollLoop]
    rw [if_neg (by omega)]
    rw [if_neg (by rcases hs with h | h <;> simp [h])]
    rw [if_pos hs, if_pos h61]
  · intro hs
    simp only [pollLoop]
    rw [if_neg (by omega)]
    rcases hs with h | h
    · rw [if_pos h]
    · rw [if_neg (by simp [h]), if_neg (by simp [h]), if_pos h]
  · intro hs hc hnc
    have hcode : (if b.code = "" ∧ b.hasRedirect = true ∧ b.redirectParseOk = true
        then b.redirectCode else b.code) = "" := by
      split_ifs with hcond
      · by_contra hne
        exact hnc ⟨hcond.2.1, hcond.2.2, hne⟩
      · exact hc
    simp only [pollLoop]
    rw [if_neg (by omega)]
    rw [if_neg (by simp [hs]), if_neg (by simp [hs]), if_neg (by simp [hs]), if_pos hs]
    rw [hcode]
    rw [if_pos rfl]
  · intro hs
    simp only [List.mem_cons, List.mem_singleton] at hs
    push_neg at hs
    obtain ⟨h408, h404, h402, h201, h405, -⟩ := hs
    simp only [pollLoop]
    rw [if_neg (by omega)]
    rw [if_neg h408, if_neg (by rintro (h | h) <;> simp_all), if_neg h201, if_neg h405]
  · intro he
    simp only [pollLoop]
    rw [if_pos he]

/-- Witness for the amended C9 at concrete inputs. -/
theorem qr_poll_amended_witness :
    ((0 : Nat) ≤ 300000
      ∧ pollLoop 300000 [QRResp.body body404] 0 0 = pollLoop 300000 [] 1000 1
      ∧ pollLoop 300000 [QRResp.body body405NoCode] 0 7 = pollLoop 300000 [] 1000 7)
    ∧ pollLoop 300000 [QRResp.body body404] 300001 0 =
        (PollOut.expiredTimeout, [QRResp.body body404]) := by
  have h1 := qr_poll_amended 300000 [] [QRResp.body body404] (QRResp.body body404) 0 0 body404
  have h2 := qr_poll_amended 300000 [] [QRResp.body body404] (QRResp.body body404) 0 7
    body405NoCode
  have h3 := qr_poll_amended 300000 [] [] (QRResp.body body404) 300001 0 body404
  exact ⟨⟨by omega, (h1.1 (by omega)).1 (by decide) (by omega),
    (h2.1 (by omega)).2.2.2.1 (by decide) (by decide) (by decide)⟩,
    h3.2.1 (by omega)⟩

/-- C3 counterexample: a throttled submission with proxy-on-throttle
disabled triggers the backoff but is never retried and the proxy is
never cleared — exactly one submission appears in the trace — where the
claim demands one retry followed by an unconditional proxy clear. -/
theorem toofast_retry_counterexample :
    isTooFastMessage tooFastResp.message = true
    ∧ (tryGrabDate ctxNoProxy (initSt envTooFastNoProxy)).1 = Except.ok none
    ∧ (tryGrabDate ctxNoProxy (initSt envTooFastNoProxy)).2.trace =
        [NetCall.schedule "u" "d" "2024-01-01",
         NetCall.ticketDetail "u" "d" "s1" "m",
         NetCall.submitOrder]
    ∧ NetCall.clearProxy ∉ (tryGrabDate ctxNoProxy (initSt envTooFastNoProxy)).2.trace := by
  refine ⟨by decide, rfl, rfl, by decide⟩

/-- C3 (amended): on a failure message matching the known throttling
phrasing the engine applies a randomized cancellable backoff in
[2.5s, 4.2s] and, only when proxy-on-throttle is enabled and a proxy was
actually rotated, retries the same submission exactly once and then
clears the proxy regardless of the retry's outcome (also when the
backoff is cancelled); with no rotated proxy the slot is abandoned after
the backoff without a retry or a clear (see the counterexample); any
failure not matching the phrasing is logged and the engine moves to the
next slot without retrying that slot. -/
theorem toofast_retry_amended (r : SubmitOrderResult) (rand : Nat) :
    (2500 ≤ randomBackoffMs submitBackoffMinMs submitBackoffMaxMs rand
      ∧ randomBackoffMs submitBackoffMinMs submitBackoffMaxMs rand ≤ 4200)
    ∧ (tryGrabDate ctxProxy (initSt (envTooFastProxy r))).2.trace =
        [NetCall.schedule "u" "d" "2024-01-01",
         NetCall.ticketDetail "u" "d" "s1" "m",
         NetCall.submitOrder,
         NetCall.rotateProxy,
         NetCall.submitOrder,
         NetCall.clearProxy]
    ∧ (tryGrabDate ctxProxy (initSt (envTooFastProxy r))).1 =
        (if r.success || r.status then
          Except.ok (some (mkGrabSuccess ctxProxy "Dr" "08:00-08:30" r.url))
        else Except.ok none)
    ∧ ((tryGrabDate ctxProxy (initSt envOrdFail)).2.trace =
        [NetCall.schedule "u" "d" "2024-01-01",
         NetCall.ticketDetail "u" "d" "s1" "m",
         NetCall.submitOrder,
         NetCall.ticketDetail "u" "d" "s2" "m",
         NetCall.submitOrder]
      ∧ ("error", "号源已满") ∈ (tryGrabDate ctxProxy (initSt envOrdFail)).2.logs
      ∧ (tryGrabDate ctxProxy (initSt envOrdFail)).1 = Except.ok none)
    ∧ ((tryGrabDate ctxProxy (initSt envTooFastCancelled)).2.trace =
        [NetCall.schedule "u" "d" "2024-01-01",
         NetCall.ticketDetail "u" "d" "s1" "m",
         NetCall.submitOrder,
         NetCall.rotateProxy,
         NetCall.clearProxy]
      ∧ (tryGrabDate ctxProxy (initSt envTooFastCancelled)).1 = Except.error ctxErr) := by
  refine ⟨⟨?_, ?_⟩, ?_, ?_, ⟨rfl, by decide, rfl⟩, ⟨rfl, rfl⟩⟩
  · have hval : randomBackoffMs submitBackoffMinMs submitBackoffMaxMs rand =
        2500 + rand % 1701 := by
      simp [randomBackoffMs, submitBackoffMinMs, submitBackoffMaxMs]
    rw [hval]; omega
  · have hval : randomBackoffMs submitBackoffMinMs submitBackoffMaxMs rand =
        2500 + rand % 1701 := by
      simp [randomBackoffMs, submitBackoffMinMs, submitBackoffMaxMs]
    rw [hval]; omega
  · obtain ⟨s, stt, m, u⟩ := r
    cases s <;> cases stt <;> rfl
  · obtain ⟨s, stt, m, u⟩ := r
    cases s <;> cases stt <;> rfl

end Skyline
